import Mathlib

/-!
# Multi-Wordle: the guess evaluation and the game state machine of `main.go`

A shallow embedding of `SentenceGame`, `NewSentenceGame`, `SentenceGame.MakeGuess`,
the state update of `handleNewGame` and the start-up path of `main`.

* A Go `string` is its sequence of bytes, `List Nat`; `len` is `List.length` and
  `s[i]` is `s[i]?`, where `none` stands for the run-time panic
  "index out of range".
* The feedback strings `""`, `"correct"`, `"present"`, `"absent"` are the four
  constructors of `Mark`.
* `MakeGuess` returns the game as the call leaves it together with the response;
  the response is `none` when the call panics.  The game is returned in that
  case too, because the assignment `g.Guesses = append(g.Guesses, guesses)` has
  already happened when the feedback loops run.
* `strings.ToUpper` is modelled on its two paths: byte by byte on ASCII strings,
  and by the parameter `mapUpper` on all others.  `goMapUpper` is that second
  path by UTF-8 decoding, for the runes listed in `unicodeToUpper`.
-/

namespace MultiWordle

/-! ## Data model -/

/-- Go `const wordLength = 5`. -/
def wordLength : Nat := 5

/-- Go `const maxGuesses = 6`. -/
def maxGuesses : Nat := 6

/-- The values stored in a feedback slice: the zero value `""` left by `make`, and
the three strings `"correct"`, `"present"`, `"absent"`. -/
inductive Mark where
  | unset
  | correct
  | present
  | absent
  deriving DecidableEq, Repr

/-- Go `type SentenceGame struct`. -/
structure SentenceGame where
  Words : List (List Nat)
  Guesses : List (List (List Nat))
  Feedback : List (List (List Mark))
  GameOver : Bool
  Won : Bool
  deriving DecidableEq, Repr

/-- Go `type GuessResponse struct`. -/
structure GuessResponse where
  Valid : Bool
  GameOver : Bool
  Won : Bool
  Words : List (List Nat)
  Guesses : List (List (List Nat))
  Feedback : List (List (List Mark))
  deriving DecidableEq, Repr

/-- Go `NewSentenceGame`. -/
def NewSentenceGame (words : List (List Nat)) : SentenceGame :=
  { Words := words, Guesses := [], Feedback := [], GameOver := false, Won := false }

/-! ## `strings.ToUpper` -/

/-- The byte-wise step of the ASCII path of `strings.ToUpper`:
`if 'a' <= c && c <= 'z' { c -= 'a' - 'A' }`. -/
def upperByte (c : Nat) : Nat :=
  if 97 ≤ c ∧ c ≤ 122 then c - 32 else c

/-- The test `c >= utf8.RuneSelf` of `strings.ToUpper` fails for every byte. -/
def isASCII (s : List Nat) : Bool :=
  s.all (fun c => decide (c < 128))

/-- Library function `strings.ToUpper`.  A string of ASCII bytes is mapped byte by
byte.  Any other string is handed to `strings.Map(unicode.ToUpper, s)`, which
decodes and re-encodes UTF-8 and may return a string with a different number of
bytes; that library call is the parameter `mapUpper`. -/
def ToUpper (mapUpper : List Nat → List Nat) (s : List Nat) : List Nat :=
  if isASCII s then s.map upperByte else mapUpper s

/-! ## `MakeGuess` -/

/-- A counting loop `for i := lo; i < lo + n; i++ { body }` over a state; `none`
is a panic raised by the body, which ends the loop. -/
def loopFrom {σ : Type} (body : σ → Nat → Option σ) : Nat → Nat → σ → Option σ
  | 0, _, st => some st
  | n + 1, i, st =>
    match body st i with
    | none => none
    | some st1 => loopFrom body n (i + 1) st1

/-- The local variables `feedback`, `used` of one iteration of the word loop, and
the variable `allCorrect` shared by all iterations. -/
structure Scratch where
  feedback : List Mark
  used : List Bool
  allCorrect : Bool
  deriving DecidableEq, Repr

/-- Body of the first pass (lines 79-86):
`if guess[i] == word[i] { feedback[i] = "correct"; used[i] = true } else { allCorrect = false }`. -/
def firstPassStep (guess word : List Nat) (st : Scratch) (i : Nat) : Option Scratch :=
  match guess[i]?, word[i]? with
  | some a, some b =>
    if a = b then
      some { st with feedback := st.feedback.set i Mark.correct, used := st.used.set i true }
    else
      some { st with allCorrect := false }
  | _, _ => none

/-- The inner loop of the second pass (lines 92-98), `for j := j0; j < j0 + n; j++`:
the first `j` with `!used[j] && guess[i] == word[j]`, at which the loop breaks.
`some none` when the loop runs to its end, `none` on a panic.  The comparison is
evaluated only when `used[j]` is false. -/
def findUnused (guess word : List Nat) (used : List Bool) (i : Nat) :
    Nat → Nat → Option (Option Nat)
  | 0, _ => some none
  | n + 1, j =>
    match used[j]? with
    | none => none
    | some true => findUnused guess word used i n (j + 1)
    | some false =>
      match guess[i]?, word[j]? with
      | some a, some b =>
        if a = b then some (some j) else findUnused guess word used i n (j + 1)
      | _, _ => none

/-- Body of the second pass (lines 88-102). -/
def secondPassStep (guess word : List Nat) (st : Scratch) (i : Nat) : Option Scratch :=
  match st.feedback[i]? with
  | none => none
  | some Mark.correct => some st
  | some _ =>
    match findUnused guess word st.used i wordLength 0 with
    | none => none
    | some found =>
      let st1 : Scratch :=
        match found with
        | some j =>
          { st with feedback := st.feedback.set i Mark.present, used := st.used.set j true }
        | none => st
      match st1.feedback[i]? with
      | none => none
      | some Mark.unset => some { st1 with feedback := st1.feedback.set i Mark.absent }
      | some _ => some st1

/-- One iteration of the word loop (lines 74-103) for `guess := guesses[w]` and
`word := g.Words[w]`: the feedback slice stored in `guessFeedback[w]` and the
value of `allCorrect` after the iteration. -/
def wordFeedback (guess word : List Nat) (allCorrect : Bool) : Option (List Mark × Bool) :=
  let st0 : Scratch :=
    { feedback := List.replicate wordLength Mark.unset,
      used := List.replicate wordLength false,
      allCorrect := allCorrect }
  match loopFrom (firstPassStep guess word) wordLength 0 st0 with
  | none => none
  | some st1 =>
    match loopFrom (secondPassStep guess word) wordLength 0 st1 with
    | none => none
    | some st2 => some (st2.feedback, st2.allCorrect)

/-- The word loop `for w := 0; w < len(g.Words); w++` (lines 73-104), reading
`g.Words[w]` and `guesses[w]` in step: the slice `guessFeedback` and the final
`allCorrect`; `none` on a panic. -/
def evalWords : List (List Nat) → List (List Nat) → Bool → Option (List (List Mark) × Bool)
  | [], _, allCorrect => some ([], allCorrect)
  | _ :: _, [], _ => none
  | word :: words, guess :: guesses, allCorrect =>
    match wordFeedback guess word allCorrect with
    | none => none
    | some (fb, ac1) =>
      match evalWords words guesses ac1 with
      | none => none
      | some (rest, ac2) => some (fb :: rest, ac2)

/-- The validation loop (lines 62-67) over the guesses, run after the check
`len(guesses) == len(g.Words)`: `none` when a word is met whose length is not
`wordLength` (the call returns `response`), else the guesses uppercased. -/
def upperAll (mapUpper : List Nat → List Nat) : List (List Nat) → Option (List (List Nat))
  | [] => some []
  | w :: ws =>
    if w.length ≠ wordLength then none
    else
      match upperAll mapUpper ws with
      | none => none
      | some rest => some (ToUpper mapUpper w :: rest)

/-- Go `(g *SentenceGame) MakeGuess(guesses []string) GuessResponse`: the game after
the call and the response, `none` when the call panics. -/
def MakeGuess (mapUpper : List Nat → List Nat) (g : SentenceGame) (guesses : List (List Nat)) :
    SentenceGame × Option GuessResponse :=
  let response : GuessResponse :=
    { Valid := false, GameOver := g.GameOver, Won := g.Won, Words := g.Words,
      Guesses := g.Guesses, Feedback := g.Feedback }
  if guesses.length ≠ g.Words.length then (g, some response)
  else
    match upperAll mapUpper guesses with
    | none => (g, some response)
    | some upper =>
      let g1 : SentenceGame := { g with Guesses := g.Guesses ++ [upper] }
      match evalWords g1.Words upper true with
      | none => (g1, none)
      | some (guessFeedback, allCorrect) =>
        let g2 : SentenceGame := { g1 with Feedback := g1.Feedback ++ [guessFeedback] }
        let response1 : GuessResponse :=
          { response with Valid := true, Guesses := g2.Guesses, Feedback := g2.Feedback }
        if allCorrect then
          ({ g2 with GameOver := true, Won := true },
            some { response1 with GameOver := true, Won := true })
        else if maxGuesses ≤ g2.Guesses.length then
          ({ g2 with GameOver := true }, some { response1 with GameOver := true })
        else (g2, some response1)

/-- The state update of `handleNewGame` (lines 130-133). -/
def handleNewGame (g : SentenceGame) : SentenceGame :=
  { g with GameOver := false, Won := false, Guesses := [], Feedback := [] }

/-! ## Sequences of operations -/

/-- The two operations on the game: a call of `MakeGuess` and the reset of
`handleNewGame`. -/
inductive Action where
  | guess (attempt : List (List Nat))
  | reset
  deriving DecidableEq, Repr

/-- The game after one operation.  A `MakeGuess` call that panics leaves the game
as its partial execution left it: `handleGuess` runs under `net/http`, which
recovers the panic of a handler, and the global `game` lives on. -/
def step (mapUpper : List Nat → List Nat) (g : SentenceGame) : Action → SentenceGame
  | Action.guess attempt => (MakeGuess mapUpper g attempt).1
  | Action.reset => handleNewGame g

/-- The game after a sequence of operations. -/
def run (mapUpper : List Nat → List Nat) (g : SentenceGame) (acts : List Action) :
    SentenceGame :=
  acts.foldl (step mapUpper) g

/-- The operation returns: a `MakeGuess` call gives a response, it does not panic. -/
def returns (mapUpper : List Nat → List Nat) (g : SentenceGame) : Action → Bool
  | Action.guess attempt => (MakeGuess mapUpper g attempt).2.isSome
  | Action.reset => true

/-- Every operation of the sequence returns. -/
def allReturn (mapUpper : List Nat → List Nat) : SentenceGame → List Action → Bool
  | _, [] => true
  | g, act :: rest => returns mapUpper g act && allReturn mapUpper (step mapUpper g act) rest

/-- The operation returns and, when it is a `MakeGuess` call, is made while
`GameOver` is false. -/
def inPlay (mapUpper : List Nat → List Nat) (g : SentenceGame) : Action → Bool
  | Action.guess attempt => !g.GameOver && (MakeGuess mapUpper g attempt).2.isSome
  | Action.reset => true

/-- Every operation of the sequence is `inPlay`. -/
def allInPlay (mapUpper : List Nat → List Nat) : SentenceGame → List Action → Bool
  | _, [] => true
  | g, act :: rest => inPlay mapUpper g act && allInPlay mapUpper (step mapUpper g act) rest

/-- The call returns a response with `Valid = true`. -/
def accepted (mapUpper : List Nat → List Nat) (g : SentenceGame) (attempt : List (List Nat)) :
    Bool :=
  match (MakeGuess mapUpper g attempt).2 with
  | some r => r.Valid
  | none => false

/-- Every attempt of the sequence, made one after the other, is accepted. -/
def allAccepted (mapUpper : List Nat → List Nat) :
    SentenceGame → List (List (List Nat)) → Bool
  | _, [] => true
  | g, a :: rest =>
    accepted mapUpper g a && allAccepted mapUpper (MakeGuess mapUpper g a).1 rest

/-! ## Vocabulary of the statements -/

/-- Number of positions `j < i` of the guess that hold the letter `c` and are not
an exact match: `g[j] = c` and `g[j] ≠ s[j]`. -/
def misplacedBefore (g s : List Nat) (c : Option Nat) (i : Nat) : Nat :=
  (List.range i).countP (fun j => decide (g[j]? = c ∧ g[j]? ≠ s[j]?))

/-- Number of positions `k` of the secret that hold the letter `c` and are not an
exact match: `s[k] = c` and `g[k] ≠ s[k]`. -/
def unmatched (g s : List Nat) (c : Option Nat) : Nat :=
  (List.range wordLength).countP (fun k => decide (s[k]? = c ∧ g[k]? ≠ s[k]?))

/-- The feedback rule in closed form: exact matches are `correct`; another
position is `present` while earlier misplaced copies of its letter have not used
up the unmatched copies in the secret, else `absent`. -/
def markAt (g s : List Nat) (i : Nat) : Mark :=
  if g[i]? = s[i]? then Mark.correct
  else if misplacedBefore g s g[i]? i < unmatched g s g[i]? then Mark.present
  else Mark.absent

/-- All `wordLength` positions of guess and secret hold the same letter. -/
def sameLetters (g s : List Nat) : Bool :=
  (List.range wordLength).all (fun i => decide (g[i]? = s[i]?))

/-- Number of unused secret positions holding the letter `c`. -/
def freeCount (s : List Nat) (used : List Bool) (c : Option Nat) : Nat :=
  (List.range wordLength).countP (fun j => decide (used[j]? = some false ∧ s[j]? = c))

/-- The feedback row of an attempt in closed form: `markAt` for each pair of a
secret word and its guess word. -/
def rowOf (words guesses : List (List Nat)) : List (List Mark) :=
  List.zipWith (fun word guess => (List.range wordLength).map (markAt guess word)) words guesses

/-- Every guess word agrees with its secret word at all `wordLength` positions. -/
def allSame (words guesses : List (List Nat)) : Bool :=
  (List.zipWith (fun word guess => sameLetters guess word) words guesses).all id

/-- The words of secret and attempt are long enough for the word loop: a guess
for every secret word, and `wordLength` bytes in each word of a pair. -/
def LongEnough (words guesses : List (List Nat)) : Prop :=
  words.length ≤ guesses.length ∧
    ∀ p, p ∈ List.zip words guesses → wordLength ≤ p.1.length ∧ wordLength ≤ p.2.length

/-- The shape check of `MakeGuess`: one guess word per secret word, each of
`wordLength` bytes. -/
def ShapeOK (g : SentenceGame) (a : List (List Nat)) : Prop :=
  a.length = g.Words.length ∧ ∀ w, w ∈ a → w.length = wordLength

instance (g : SentenceGame) (a : List (List Nat)) : Decidable (ShapeOK g a) := by
  unfold ShapeOK; infer_instance

/-- The response built at the entry of `MakeGuess`: `Valid` false and a snapshot
of the game. -/
def rejection (g : SentenceGame) : GuessResponse :=
  { Valid := false, GameOver := g.GameOver, Won := g.Won, Words := g.Words,
    Guesses := g.Guesses, Feedback := g.Feedback }

/-- The game after an attempt has been evaluated to `row` with `allCorrect = ac`. -/
def afterGuess (g : SentenceGame) (upper : List (List Nat)) (row : List (List Mark))
    (ac : Bool) : SentenceGame :=
  { Words := g.Words, Guesses := g.Guesses ++ [upper], Feedback := g.Feedback ++ [row],
    GameOver := ac || decide (maxGuesses ≤ g.Guesses.length + 1) || g.GameOver,
    Won := ac || g.Won }

/-- The response of a call that ends in game `g`: `Valid` true and a snapshot of
the game. -/
def acceptance (g : SentenceGame) : GuessResponse :=
  { Valid := true, GameOver := g.GameOver, Won := g.Won, Words := g.Words,
    Guesses := g.Guesses, Feedback := g.Feedback }

/-- The feedback at word `w`, position `i` of the last row of the feedback
history. -/
def lastFeedback (g : SentenceGame) (w i : Nat) : Option Mark :=
  match g.Feedback.getLast? with
  | none => none
  | some row =>
    match row[w]? with
    | none => none
    | some fb => fb[i]?

/-- Number of positions `i < n` of the guess that hold the letter `c` and are
marked `correct` or `present` by the feedback rule. -/
def creditedBefore (g s : List Nat) (c : Option Nat) (n : Nat) : Nat :=
  (List.range n).countP
    (fun i => decide (g[i]? = c ∧ (markAt g s i = Mark.correct ∨ markAt g s i = Mark.present)))

/-- Number of positions `i < n` that hold the letter `c` in both words. -/
def exactBefore (g s : List Nat) (c : Option Nat) (n : Nat) : Nat :=
  (List.range n).countP (fun i => decide (s[i]? = c ∧ g[i]? = s[i]?))

/-! ## Invariants -/

/-- State of the first pass before iteration `k`: positions below `k` with equal
letters are `correct` and used, all others untouched. -/
def FirstInv (g s : List Nat) (ac0 : Bool) (k : Nat) (st : Scratch) : Prop :=
  st.feedback.length = wordLength ∧ st.used.length = wordLength ∧
  (∀ j, j < wordLength →
    st.feedback[j]? = some (if j < k ∧ g[j]? = s[j]? then Mark.correct else Mark.unset)) ∧
  (∀ j, j < wordLength → st.used[j]? = some (decide (j < k ∧ g[j]? = s[j]?))) ∧
  (st.allCorrect = true ↔ ac0 = true ∧ ∀ j, j < k → g[j]? = s[j]?)

/-- State of the second pass before iteration `k`: exact matches and the
positions below `k` carry their final mark, and for every letter the free secret
positions are the unmatched ones not yet taken by an earlier misplaced copy. -/
def SecondInv (g s : List Nat) (ac : Bool) (k : Nat) (st : Scratch) : Prop :=
  st.feedback.length = wordLength ∧ st.used.length = wordLength ∧
  (∀ j, j < wordLength →
    st.feedback[j]? = some (if g[j]? = s[j]? ∨ j < k then markAt g s j else Mark.unset)) ∧
  (∀ c, freeCount s st.used c = unmatched g s c - misplacedBefore g s c k) ∧
  st.allCorrect = ac

/-- The flag `GameOver` is set exactly when the game is won or the history is full. -/
def FlagsInv (g : SentenceGame) : Prop :=
  g.GameOver = true ↔ (g.Won = true ∨ maxGuesses ≤ g.Guesses.length)

/-- The flag `GameOver` follows the rule of `FlagsInv` and the history holds at most
`maxGuesses` attempts. -/
def BoundedInv (g : SentenceGame) : Prop :=
  FlagsInv g ∧ g.Guesses.length ≤ maxGuesses

/-! ## The non-ASCII path of `strings.ToUpper`

`strings.ToUpper` hands a string with a byte `>= utf8.RuneSelf` to
`strings.Map(unicode.ToUpper, s)`: the string is decoded rune by rune and the
upper-case runes are encoded again, so the number of bytes can change. -/

/-- Go `utf8.RuneError`, U+FFFD. -/
def RuneError : Nat := 0xFFFD

/-- A UTF-8 continuation byte, `0x80 <= b <= 0xBF`. -/
def isCont (b : Nat) : Bool :=
  decide (0x80 ≤ b ∧ b ≤ 0xBF)

/-- Go `utf8.DecodeRuneInString`: the first rune of the string and its width in
bytes; `(RuneError, 1)` for a byte sequence that is not a shortest-form UTF-8
encoding of a scalar value, `(RuneError, 0)` for the empty string. -/
def DecodeRuneInString : List Nat → Nat × Nat
  | [] => (RuneError, 0)
  | b0 :: rest =>
    if b0 < 0x80 then (b0, 1)
    else if 0xC2 ≤ b0 ∧ b0 ≤ 0xDF then
      match rest with
      | b1 :: _ =>
        if isCont b1 then ((b0 % 32) * 64 + b1 % 64, 2) else (RuneError, 1)
      | [] => (RuneError, 1)
    else if 0xE0 ≤ b0 ∧ b0 ≤ 0xEF then
      match rest with
      | b1 :: b2 :: _ =>
        if (if b0 = 0xE0 then 0xA0 else 0x80) ≤ b1 ∧
            b1 ≤ (if b0 = 0xED then 0x9F else 0xBF) ∧ isCont b2 then
          (((b0 % 16) * 64 + b1 % 64) * 64 + b2 % 64, 3)
        else (RuneError, 1)
      | _ => (RuneError, 1)
    else if 0xF0 ≤ b0 ∧ b0 ≤ 0xF4 then
      match rest with
      | b1 :: b2 :: b3 :: _ =>
        if (if b0 = 0xF0 then 0x90 else 0x80) ≤ b1 ∧
            b1 ≤ (if b0 = 0xF4 then 0x8F else 0xBF) ∧ isCont b2 ∧ isCont b3 then
          ((((b0 % 8) * 64 + b1 % 64) * 64 + b2 % 64) * 64 + b3 % 64, 4)
        else (RuneError, 1)
      | _ => (RuneError, 1)
    else (RuneError, 1)

/-- Go `utf8.AppendRune` on the empty slice: the UTF-8 encoding of a rune, that of
`RuneError` for a surrogate or a value above U+10FFFF. -/
def AppendRune (r : Nat) : List Nat :=
  if r ≤ 0x7F then [r]
  else if r ≤ 0x7FF then [0xC0 + r / 64, 0x80 + r % 64]
  else if 0x10FFFF < r ∨ (0xD800 ≤ r ∧ r ≤ 0xDFFF) then [0xEF, 0xBF, 0xBD]
  else if r ≤ 0xFFFF then [0xE0 + r / 4096, 0x80 + (r / 64) % 64, 0x80 + r % 64]
  else [0xF0 + r / 262144, 0x80 + (r / 4096) % 64, 0x80 + (r / 64) % 64, 0x80 + r % 64]

/-- Go `strings.Map` for a mapping that drops no rune: the encodings of the mapped
runes of the string, one after the other.  The first argument bounds the number
of runes and is the length of the string in `Map`. -/
def mapRunes (mapping : Nat → Nat) : Nat → List Nat → List Nat
  | 0, _ => []
  | _ + 1, [] => []
  | fuel + 1, b0 :: rest =>
    AppendRune (mapping (DecodeRuneInString (b0 :: rest)).1) ++
      mapRunes mapping fuel ((b0 :: rest).drop (DecodeRuneInString (b0 :: rest)).2)

/-- Go `strings.Map(mapping, s)`. -/
def Map (mapping : Nat → Nat) (s : List Nat) : List Nat :=
  mapRunes mapping s.length s

/-- Go `unicode.ToUpper` on ASCII runes, on U+017F (long s, to U+0053) and on
U+0250 (turned a, to U+2C6F): the rule for `r <= MaxASCII` and the entries
`{0x017F, 0x017F, d{-300, 0, -300}}` and `{0x0250, 0x0250, d{10783, 0, 10783}}` of
`unicode.CaseRanges`.  The other entries of the table are not listed: every other
rune is returned as it is. -/
def unicodeToUpper (r : Nat) : Nat :=
  if r ≤ 0x7F then upperByte r
  else if r = 0x17F then r - 300
  else if r = 0x250 then r + 10783
  else r

/-- The call `strings.Map(unicode.ToUpper, s)` of `strings.ToUpper`, with
`unicode.ToUpper` as far as `unicodeToUpper` lists it: it is that call on strings
whose runes are ASCII, U+017F or U+0250, and is used on such strings only. -/
def goMapUpper (s : List Nat) : List Nat :=
  Map unicodeToUpper s

/-! ## The start-up path of `main` -/

/-- Go `main` from the fields `parts` of the command-line argument up to the
assignment `game = NewSentenceGame(words)` (lines 340-355): `none` when the
process exits because there is no word or a word whose length is not
`wordLength`, else the game that is served. -/
def main (mapUpper : List Nat → List Nat) (parts : List (List Nat)) : Option SentenceGame :=
  if parts.length < 1 then none
  else if parts.any (fun w => decide (w.length ≠ wordLength)) then none
  else some (NewSentenceGame (parts.map (ToUpper mapUpper)))

/-! ## More vocabulary of the statements -/

/-- The operation, when it is a `MakeGuess` call, is made while `GameOver` is
false. -/
def beforeOver (g : SentenceGame) : Action → Bool
  | Action.guess _ => !g.GameOver
  | Action.reset => true

/-- Every `MakeGuess` call of the sequence is made while `GameOver` is false. -/
def allBeforeOver (mapUpper : List Nat → List Nat) : SentenceGame → List Action → Bool
  | _, [] => true
  | g, act :: rest => beforeOver g act && allBeforeOver mapUpper (step mapUpper g act) rest

/-- The feedback array of word `w` in the last row of the feedback history. -/
def lastRowWord (g : SentenceGame) (w : Nat) : Option (List Mark) :=
  match g.Feedback.getLast? with
  | none => none
  | some row => row[w]?

/-- A guess word for word agrees with the secret: as many words, and the same
letter at each of the `wordLength` positions of each word. -/
def MatchesSecret (words guess : List (List Nat)) : Prop :=
  guess.length = words.length ∧
    ∀ (w : Nat) (s g : List Nat), words[w]? = some s → guess[w]? = some g →
      ∀ i, i < wordLength → g[i]? = s[i]?

/-- The feedback row belongs to a guess for the secret `words`: one array per
secret word, as many as the guess has words, each of `wordLength` marks that are
`correct`, `present` or `absent`. -/
def RowWellFormed (words guess : List (List Nat)) (row : List (List Mark)) : Prop :=
  row.length = words.length ∧ row.length = guess.length ∧
    ∀ fb, fb ∈ row → fb.length = wordLength ∧
      ∀ m, m ∈ fb → m = Mark.correct ∨ m = Mark.present ∨ m = Mark.absent

/-- The histories are aligned: `Guesses` and `Feedback` have the same length and
every row is well formed for the guess at its index. -/
def HistoryInv (g : SentenceGame) : Prop :=
  g.Guesses.length = g.Feedback.length ∧
    ∀ (k : Nat) (guess : List (List Nat)) (row : List (List Mark)),
      g.Guesses[k]? = some guess → g.Feedback[k]? = some row →
        RowWellFormed g.Words guess row

/-- A won game is over, and its last guess matches the secret. -/
def WonInv (g : SentenceGame) : Prop :=
  (g.Won = true → g.GameOver = true) ∧
    (g.Won = true → ∃ last, g.Guesses.getLast? = some last ∧ MatchesSecret g.Words last)

/-! ## Test data -/

def APPLE : List Nat := [65, 80, 80, 76, 69]
def ALLOT : List Nat := [65, 76, 76, 79, 84]
def ROBOT : List Nat := [82, 79, 66, 79, 84]
def BOOBS : List Nat := [66, 79, 79, 66, 83]
def MANGO : List Nat := [77, 65, 78, 71, 79]
def PLAN : List Nat := [80, 76, 65, 78]
def HELLO : List Nat := [72, 69, 76, 76, 79]
def apple : List Nat := [97, 112, 112, 108, 101]

def SABC : List Nat := [83, 65, 66, 67]

/-- The lowercase letters hello. -/
def hello : List Nat := [104, 101, 108, 108, 111]

/-- The six letters APPLES. -/
def APPLES : List Nat := [65, 80, 80, 76, 69, 83]

/-- The string "ſabc": U+017F (bytes 0xC5 0xBF) and the letters a, b, c; 5 bytes. -/
def longSabc : List Nat := [0xC5, 0xBF, 97, 98, 99]

/-- The string "ɐabc": U+0250 (bytes 0xC9 0x90) and the letters a, b, c; 5 bytes. -/
def turnedAabc : List Nat := [0xC9, 0x90, 97, 98, 99]

/-- The string "ⱯABC": U+2C6F (bytes 0xE2 0xB1 0xAF) and the letters A, B, C; 6 bytes. -/
def turnedAABC : List Nat := [0xE2, 0xB1, 0xAF, 65, 66, 67]

/-- Six attempts HELLO against the secret APPLE: a lost game. -/
def lostGame : SentenceGame :=
  run id (NewSentenceGame [APPLE]) (List.replicate 6 (Action.guess [HELLO]))

/-- Five attempts HELLO against the secret APPLE: one attempt is left. -/
def fiveGuesses : SentenceGame :=
  run id (NewSentenceGame [APPLE]) (List.replicate 5 (Action.guess [HELLO]))

/-! ## Loops and counting -/

/-- Invariant rule for `loopFrom`: an invariant that every iteration preserves
without panicking holds when the loop ends, and the loop does end. -/
theorem loopFrom_inv {σ : Type} (body : σ → Nat → Option σ) (P : Nat → σ → Prop) :
    ∀ (n lo : Nat) (st : σ), P lo st →
      (∀ i t, lo ≤ i → i < lo + n → P i t → ∃ t1, body t i = some t1 ∧ P (i + 1) t1) →
      ∃ st1, loopFrom body n lo st = some st1 ∧ P (lo + n) st1 := by
  intro n
  induction n with
  | zero => intro lo st h _; exact ⟨st, rfl, by simpa using h⟩
  | succ n ih =>
    intro lo st h hstep
    obtain ⟨t1, ht1, hP1⟩ := hstep lo st (Nat.le_refl lo) (by omega) h
    obtain ⟨st1, hst1, hP⟩ := ih (lo + 1) t1 hP1
      (fun i t hlo hhi hPi => hstep i t (by omega) (by omega) hPi)
    refine ⟨st1, ?_, ?_⟩
    · simp [loopFrom, ht1, hst1]
    · have e : lo + (n + 1) = lo + 1 + n := by omega
      rw [e]; exact hP

/-- A loop that ends has run each of its iterations without a panic. -/
theorem loopFrom_some_step {σ : Type} (body : σ → Nat → Option σ) :
    ∀ (n lo : Nat) (st st1 : σ), loopFrom body n lo st = some st1 →
      ∀ i, lo ≤ i → i < lo + n → ∃ t t1, body t i = some t1 := by
  intro n
  induction n with
  | zero => intro lo st st1 _ i h1 h2; omega
  | succ n ih =>
    intro lo st st1 h i h1 h2
    simp only [loopFrom] at h
    cases hb : body st lo with
    | none => simp [hb] at h
    | some t1 =>
      simp only [hb] at h
      by_cases hi : i = lo
      · subst hi; exact ⟨st, t1, hb⟩
      · exact ih (lo + 1) t1 st1 h i (by omega) (by omega)

/-- Changing one entry of a predicate from true to false lowers its count on
`range n` by one. -/
theorem countP_range_flip (p q : Nat → Bool) (n j : Nat) (hj : j < n)
    (hp : p j = true) (hq : q j = false) (hagree : ∀ k, k ≠ j → q k = p k) :
    (List.range n).countP q + 1 = (List.range n).countP p := by
  induction n with
  | zero => omega
  | succ n ih =>
    rw [List.range_succ, List.countP_append, List.countP_append]
    by_cases hjn : j = n
    · subst hjn
      have hcongr : (List.range j).countP q = (List.range j).countP p := by
        apply List.countP_congr
        intro k hk
        have hk1 : k < j := List.mem_range.mp hk
        rw [hagree k (by omega)]
      simp [List.countP_cons, hp, hq, hcongr]
    · have hlt : j < n := by omega
      have h1 := ih hlt
      have hn : q n = p n := hagree n (by omega)
      simp only [List.countP_cons, List.countP_nil, hn]
      omega

/-- Two predicates that agree below `n` have the same count on `range n`. -/
theorem countP_range_congr (p q : Nat → Bool) (n : Nat) (h : ∀ k, k < n → q k = p k) :
    (List.range n).countP q = (List.range n).countP p := by
  apply List.countP_congr
  intro k hk
  rw [h k (List.mem_range.mp hk)]

theorem misplacedBefore_zero (g s : List Nat) (c : Option Nat) : misplacedBefore g s c 0 = 0 := by
  simp [misplacedBefore]

theorem misplacedBefore_succ (g s : List Nat) (c : Option Nat) (i : Nat) :
    misplacedBefore g s c (i + 1) =
      misplacedBefore g s c i + (if g[i]? = c ∧ g[i]? ≠ s[i]? then 1 else 0) := by
  simp only [misplacedBefore, List.range_succ, List.countP_append, List.countP_cons,
    List.countP_nil]
  by_cases h : g[i]? = c ∧ g[i]? ≠ s[i]? <;> simp [h]

/-! ## The first pass -/

theorem firstInv_init (g s : List Nat) (ac0 : Bool) :
    FirstInv g s ac0 0
      { feedback := List.replicate wordLength Mark.unset,
        used := List.replicate wordLength false, allCorrect := ac0 } := by
  refine ⟨by simp, by simp, ?_, ?_, ?_⟩
  · intro j hj
    simp [List.getElem?_replicate, hj]
  · intro j hj
    simp [List.getElem?_replicate, hj]
  · simp

theorem firstPassStep_inv (g s : List Nat) (ac0 : Bool) (hg : wordLength ≤ g.length)
    (hs : wordLength ≤ s.length) (k : Nat) (st : Scratch) (hk : k < wordLength)
    (h : FirstInv g s ac0 k st) :
    ∃ st1, firstPassStep g s st k = some st1 ∧ FirstInv g s ac0 (k + 1) st1 := by
  obtain ⟨hfl, hul, hfb, hus, hac⟩ := h
  have hgk : g[k]? = some (g[k]) := List.getElem?_eq_getElem (by omega)
  have hsk : s[k]? = some (s[k]) := List.getElem?_eq_getElem (by omega)
  by_cases hab : g[k] = s[k]
  · refine ⟨{ st with feedback := st.feedback.set k Mark.correct,
                      used := st.used.set k true }, ?_, ?_⟩
    · simp [firstPassStep, hgk, hsk, hab]
    · have hkeq : g[k]? = s[k]? := by rw [hgk, hsk, hab]
      refine ⟨by simpa using hfl, by simpa using hul, ?_, ?_, ?_⟩
      · intro j hj
        by_cases hjk : j = k
        · subst hjk
          rw [List.getElem?_set_self (by omega)]
          simp [hkeq]
        · rw [List.getElem?_set_ne (fun e => hjk e.symm), hfb j hj]
          have : (j < k + 1 ∧ g[j]? = s[j]?) ↔ (j < k ∧ g[j]? = s[j]?) := by
            constructor
            · rintro ⟨h1, h2⟩; exact ⟨by omega, h2⟩
            · rintro ⟨h1, h2⟩; exact ⟨by omega, h2⟩
          simp only [this]
      · intro j hj
        by_cases hjk : j = k
        · subst hjk
          rw [List.getElem?_set_self (by omega)]
          simp [hkeq]
        · rw [List.getElem?_set_ne (fun e => hjk e.symm), hus j hj]
          have : (j < k + 1 ∧ g[j]? = s[j]?) ↔ (j < k ∧ g[j]? = s[j]?) := by
            constructor
            · rintro ⟨h1, h2⟩; exact ⟨by omega, h2⟩
            · rintro ⟨h1, h2⟩; exact ⟨by omega, h2⟩
          simp only [this]
      · show st.allCorrect = true ↔ _
        rw [hac]
        constructor
        · rintro ⟨h1, h2⟩
          refine ⟨h1, fun j hj => ?_⟩
          by_cases hjk : j = k
          · subst hjk; exact hkeq
          · exact h2 j (by omega)
        · rintro ⟨h1, h2⟩
          exact ⟨h1, fun j hj => h2 j (by omega)⟩
  · refine ⟨{ st with allCorrect := false }, ?_, ?_⟩
    · simp [firstPassStep, hgk, hsk, hab]
    · have hkne : g[k]? ≠ s[k]? := by
        rw [hgk, hsk]; intro e; exact hab (Option.some.inj e)
      have hiff : ∀ j, (j < k + 1 ∧ g[j]? = s[j]?) ↔ (j < k ∧ g[j]? = s[j]?) := by
        intro j
        constructor
        · rintro ⟨h1, h2⟩
          refine ⟨?_, h2⟩
          by_cases hjk : j = k
          · subst hjk; exact absurd h2 hkne
          · omega
        · rintro ⟨h1, h2⟩; exact ⟨by omega, h2⟩
      refine ⟨hfl, hul, ?_, ?_, ?_⟩
      · intro j hj
        show st.feedback[j]? = _
        rw [hfb j hj]; simp only [hiff]
      · intro j hj
        show st.used[j]? = _
        rw [hus j hj]; simp only [hiff]
      · show false = true ↔ _
        constructor
        · intro h; exact absurd h (by decide)
        · rintro ⟨_, h2⟩; exact absurd (h2 k (by omega)) hkne

theorem firstPassStep_some_lt (g s : List Nat) (st st1 : Scratch) (i : Nat)
    (h : firstPassStep g s st i = some st1) : i < g.length ∧ i < s.length := by
  unfold firstPassStep at h
  cases hg : g[i]? with
  | none => simp [hg] at h
  | some a =>
    cases hs : s[i]? with
    | none => simp [hg, hs] at h
    | some b =>
      obtain ⟨h1, _⟩ := List.getElem?_eq_some.mp hg
      obtain ⟨h2, _⟩ := List.getElem?_eq_some.mp hs
      exact ⟨h1, h2⟩

/-! ## The second pass -/

/-- The inner loop finds the first unused secret position holding the letter of
`guess[i]`, and reports `none` only when there is no such position. -/
theorem findUnused_spec (g s : List Nat) (used : List Bool) (i a : Nat)
    (hg : g[i]? = some a) (hs : wordLength ≤ s.length) (hu : used.length = wordLength) :
    ∀ (n j0 : Nat), j0 + n = wordLength →
      (∃ j, findUnused g s used i n j0 = some (some j) ∧ j0 ≤ j ∧ j < wordLength ∧
          used[j]? = some false ∧ s[j]? = some a) ∨
      (findUnused g s used i n j0 = some none ∧
          ∀ j, j0 ≤ j → j < wordLength → ¬ (used[j]? = some false ∧ s[j]? = some a)) := by
  intro n
  induction n with
  | zero =>
    intro j0 h
    right
    exact ⟨rfl, fun j h1 h2 => by omega⟩
  | succ n ih =>
    intro j0 h
    have hj0 : j0 < wordLength := by omega
    have huj : used[j0]? = some (used[j0]) := List.getElem?_eq_getElem (by omega)
    have hsj : s[j0]? = some (s[j0]) := List.getElem?_eq_getElem (by omega)
    have hrest := ih (j0 + 1) (by omega)
    have hskip : (∀ j, j0 + 1 ≤ j → j < wordLength →
          ¬ (used[j]? = some false ∧ s[j]? = some a)) →
        ¬ (used[j0]? = some false ∧ s[j0]? = some a) →
        ∀ j, j0 ≤ j → j < wordLength → ¬ (used[j]? = some false ∧ s[j]? = some a) := by
      intro h1 h2 j hj1 hj2
      by_cases e : j = j0
      · subst e; exact h2
      · exact h1 j (by omega) hj2
    cases hb : used[j0] with
    | true =>
      have hstep : findUnused g s used i (n + 1) j0 = findUnused g s used i n (j0 + 1) := by
        simp [findUnused, huj, hb]
      rw [hstep]
      rcases hrest with ⟨j, h1, h2, h3⟩ | ⟨h1, h2⟩
      · left; exact ⟨j, h1, by omega, h3⟩
      · right
        refine ⟨h1, hskip h2 ?_⟩
        rw [huj, hb]; simp
    | false =>
      by_cases hab : a = s[j0]
      · left
        refine ⟨j0, ?_, Nat.le_refl _, hj0, ?_, ?_⟩
        · simp [findUnused, huj, hb, hg, hsj, hab]
        · rw [huj, hb]
        · rw [hsj, hab]
      · have hstep : findUnused g s used i (n + 1) j0 = findUnused g s used i n (j0 + 1) := by
          simp [findUnused, huj, hb, hg, hsj, hab]
        rw [hstep]
        rcases hrest with ⟨j, h1, h2, h3⟩ | ⟨h1, h2⟩
        · left; exact ⟨j, h1, by omega, h3⟩
        · right
          refine ⟨h1, hskip h2 ?_⟩
          rw [hsj]
          rintro ⟨_, e⟩
          exact hab (Option.some.inj e).symm

/-- Marking position `j` as used removes it from the free positions of its own
letter and leaves the other letters alone. -/
theorem freeCount_set (s : List Nat) (used : List Bool) (j : Nat) (c : Option Nat)
    (hu : used.length = wordLength) (hj : j < wordLength) (hfree : used[j]? = some false) :
    freeCount s (used.set j true) c + (if s[j]? = c then 1 else 0) = freeCount s used c := by
  unfold freeCount
  by_cases hc : s[j]? = c
  · simp only [hc, if_true]
    apply countP_range_flip _ _ wordLength j hj
    · simp [hfree, hc]
    · rw [List.getElem?_set_self (by omega)]; simp
    · intro k hk
      rw [List.getElem?_set_ne (fun e => hk e.symm)]
  · simp only [hc, if_false, Nat.add_zero]
    apply countP_range_congr
    intro k _
    by_cases hk : k = j
    · subst hk
      rw [List.getElem?_set_self (by omega)]
      simp [hc]
    · rw [List.getElem?_set_ne (fun e => hk e.symm)]

/-- No free position for a letter means a free count of zero. -/
theorem freeCount_eq_zero (s : List Nat) (used : List Bool) (c : Option Nat)
    (h : ∀ j, j < wordLength → ¬ (used[j]? = some false ∧ s[j]? = c)) :
    freeCount s used c = 0 := by
  unfold freeCount
  rw [List.countP_eq_zero]
  intro j hj
  have := h j (List.mem_range.mp hj)
  simpa using this

/-- A free position for a letter means a positive free count. -/
theorem freeCount_pos (s : List Nat) (used : List Bool) (c : Option Nat) (j : Nat)
    (hj : j < wordLength) (h1 : used[j]? = some false) (h2 : s[j]? = c) :
    0 < freeCount s used c := by
  unfold freeCount
  rw [List.countP_pos_iff]
  exact ⟨j, List.mem_range.mpr hj, by simp [h1, h2]⟩

theorem secondInv_init (g s : List Nat) (ac0 : Bool) (st : Scratch)
    (h : FirstInv g s ac0 wordLength st) : SecondInv g s st.allCorrect 0 st := by
  obtain ⟨hfl, hul, hfb, hus, _⟩ := h
  refine ⟨hfl, hul, ?_, ?_, rfl⟩
  · intro j hj
    rw [hfb j hj]
    by_cases e : g[j]? = s[j]?
    · simp [e, hj, markAt]
    · simp [e]
  · intro c
    rw [misplacedBefore_zero, Nat.sub_zero]
    unfold freeCount unmatched
    apply countP_range_congr
    intro j hj
    rw [hus j hj]
    by_cases e : g[j]? = s[j]?
    · simp [e, hj]
    · simp [e]

theorem secondPassStep_inv (g s : List Nat) (ac : Bool) (hg : wordLength ≤ g.length)
    (hs : wordLength ≤ s.length) (k : Nat) (st : Scratch) (hk : k < wordLength)
    (h : SecondInv g s ac k st) :
    ∃ st1, secondPassStep g s st k = some st1 ∧ SecondInv g s ac (k + 1) st1 := by
  obtain ⟨hfl, hul, hfb, hfree, hac⟩ := h
  have hgk : g[k]? = some (g[k]) := List.getElem?_eq_getElem (by omega)
  have hother : ∀ j, j ≠ k → ((g[j]? = s[j]? ∨ j < k + 1) ↔ (g[j]? = s[j]? ∨ j < k)) := by
    intro j hjk
    constructor
    · rintro (h1 | h1)
      · exact Or.inl h1
      · exact Or.inr (by omega)
    · rintro (h1 | h1)
      · exact Or.inl h1
      · exact Or.inr (by omega)
  by_cases hkeq : g[k]? = s[k]?
  · -- an exact match: `continue`
    have hfk : st.feedback[k]? = some Mark.correct := by
      rw [hfb k hk]; simp [hkeq, markAt]
    refine ⟨st, by simp [secondPassStep, hfk], hfl, hul, ?_, ?_, hac⟩
    · intro j hj
      rw [hfb j hj]
      by_cases hjk : j = k
      · subst hjk; simp [hkeq]
      · simp only [hother j hjk]
    · intro c
      rw [hfree c, misplacedBefore_succ]
      simp [hkeq]
  · have hfk : st.feedback[k]? = some Mark.unset := by
      rw [hfb k hk]; simp [hkeq]
    have hmark : ∀ (fb : List Mark) (m : Mark), fb.length = wordLength →
        (∀ j, j < wordLength → j ≠ k → fb[j]? = st.feedback[j]?) →
        fb[k]? = some m → markAt g s k = m → ∀ j, j < wordLength →
        fb[j]? = some (if g[j]? = s[j]? ∨ j < k + 1 then markAt g s j else Mark.unset) := by
      intro fb m _ hsame hm hmk j hj
      by_cases hjk : j = k
      · subst hjk
        rw [hm, ← hmk]; simp
      · rw [hsame j hj hjk, hfb j hj]
        simp only [hother j hjk]
    rcases findUnused_spec g s st.used k (g[k]) hgk hs hul wordLength 0 (by simp) with
      ⟨j, hfind, _, hj, hju, hjs⟩ | ⟨hfind, hnone⟩
    · -- a free secret position `j`: `present`
      have hpos := freeCount_pos s st.used (some (g[k])) j hj hju hjs
      have hlt : misplacedBefore g s g[k]? k < unmatched g s g[k]? := by
        have := hfree (some (g[k]))
        rw [hgk]; omega
      refine ⟨{ st with feedback := st.feedback.set k Mark.present,
                        used := st.used.set j true }, ?_, ?_, ?_, ?_, ?_, hac⟩
      · simp [secondPassStep, hfk, hfind, List.getElem?_set_self (show k < st.feedback.length by omega)]
      · simpa using hfl
      · simpa using hul
      · apply hmark _ Mark.present (by simpa using hfl)
        · intro j' _ hj'k
          exact List.getElem?_set_ne (fun e => hj'k e.symm)
        · exact List.getElem?_set_self (by omega)
        · simp [markAt, hkeq, hlt]
      · intro c
        have hset := freeCount_set s st.used j c hul hj hju
        have hfc := hfree c
        rw [misplacedBefore_succ]
        show freeCount s (st.used.set j true) c = _
        by_cases hc : g[k]? = c
        · have hsc : s[j]? = c := by rw [hjs, ← hgk, hc]
          simp only [hsc, if_true] at hset
          simp only [hc, true_and]
          rw [← hc, if_pos hkeq]
          rw [← hc] at hset hfc
          omega
        · have hsc : ¬ s[j]? = c := by rw [hjs, ← hgk]; exact hc
          simp only [hsc, if_false, Nat.add_zero] at hset
          simp only [hc, false_and, if_false, Nat.add_zero]
          omega
    · -- no free secret position: `absent`
      have hzero := freeCount_eq_zero s st.used (some (g[k]))
        (fun j hj => hnone j (Nat.zero_le j) hj)
      have hnlt : ¬ misplacedBefore g s g[k]? k < unmatched g s g[k]? := by
        have := hfree (some (g[k]))
        rw [hgk]; omega
      refine ⟨{ st with feedback := st.feedback.set k Mark.absent }, ?_, ?_, hul, ?_, ?_, hac⟩
      · simp [secondPassStep, hfk, hfind]
      · simpa using hfl
      · apply hmark _ Mark.absent (by simpa using hfl)
        · intro j' _ hj'k
          exact List.getElem?_set_ne (fun e => hj'k e.symm)
        · exact List.getElem?_set_self (by omega)
        · simp [markAt, hkeq, hnlt]
      · intro c
        have hfc := hfree c
        rw [misplacedBefore_succ]
        show freeCount s st.used c = _
        by_cases hc : g[k]? = c
        · simp only [hc, true_and]
          rw [← hc, if_pos hkeq]
          rw [← hc] at hfc
          rw [hgk] at hnlt hfc ⊢
          omega
        · simp only [hc, false_and, if_false, Nat.add_zero]
          exact hfc

/-! ## One word -/

theorem sameLetters_iff (g s : List Nat) :
    sameLetters g s = true ↔ ∀ j, j < wordLength → g[j]? = s[j]? := by
  simp [sameLetters, List.all_eq_true]

/-- On words of at least `wordLength` bytes one iteration of the word loop does
not panic, its feedback is the closed-form rule `markAt` at each position, and
`allCorrect` stays true exactly when it was true and all letters agree. -/
theorem wordFeedback_eq (g s : List Nat) (ac : Bool) (hg : wordLength ≤ g.length)
    (hs : wordLength ≤ s.length) :
    wordFeedback g s ac =
      some ((List.range wordLength).map (markAt g s), ac && sameLetters g s) := by
  obtain ⟨st1, hrun1, hinv1⟩ := loopFrom_inv (firstPassStep g s) (FirstInv g s ac)
    wordLength 0 _ (firstInv_init g s ac)
    (fun i t _ hi hP => firstPassStep_inv g s ac hg hs i t (by omega) hP)
  rw [Nat.zero_add] at hinv1
  obtain ⟨st2, hrun2, hinv2⟩ := loopFrom_inv (secondPassStep g s)
    (SecondInv g s st1.allCorrect) wordLength 0 st1 (secondInv_init g s ac st1 hinv1)
    (fun i t _ hi hP => secondPassStep_inv g s st1.allCorrect hg hs i t (by omega) hP)
  rw [Nat.zero_add] at hinv2
  obtain ⟨hfl, _, hfb, _, hac2⟩ := hinv2
  have hfeedback : st2.feedback = (List.range wordLength).map (markAt g s) := by
    apply List.ext_getElem?
    intro j
    by_cases hj : j < wordLength
    · rw [hfb j hj]
      simp [List.getElem?_map, List.getElem?_range hj, hj]
    · rw [List.getElem?_eq_none (by omega), List.getElem?_eq_none (by simp; omega)]
  have hflag : st2.allCorrect = (ac && sameLetters g s) := by
    rw [hac2, Bool.eq_iff_iff, hinv1.2.2.2.2, Bool.and_eq_true, sameLetters_iff]
  simp only [wordFeedback, hrun1, hrun2, hfeedback, hflag]

/-- One iteration of the word loop that does not panic was run on words of at
least `wordLength` bytes. -/
theorem wordFeedback_some_len (g s : List Nat) (ac : Bool) (r : List Mark × Bool)
    (h : wordFeedback g s ac = some r) : wordLength ≤ g.length ∧ wordLength ≤ s.length := by
  unfold wordFeedback at h
  cases h1 : loopFrom (firstPassStep g s) wordLength 0
      { feedback := List.replicate wordLength Mark.unset,
        used := List.replicate wordLength false, allCorrect := ac } with
  | none => simp [h1] at h
  | some st1 =>
    obtain ⟨t, t1, ht⟩ := loopFrom_some_step _ _ _ _ _ h1 (wordLength - 1)
      (Nat.zero_le _) (by simp [wordLength])
    have := firstPassStep_some_lt g s t t1 _ ht
    simp only [wordLength] at this ⊢
    omega

theorem markAt_correct_iff (g s : List Nat) (i : Nat) :
    markAt g s i = Mark.correct ↔ g[i]? = s[i]? := by
  unfold markAt
  by_cases h : g[i]? = s[i]?
  · simp [h]
  · simp only [h, if_false]
    by_cases h2 : misplacedBefore g s g[i]? i < unmatched g s g[i]? <;> simp [h2]

/-! ## The word loop, the validation loop and the outcomes of a call -/

theorem evalWords_eq (words : List (List Nat)) :
    ∀ (guesses : List (List Nat)) (ac : Bool), LongEnough words guesses →
      evalWords words guesses ac = some (rowOf words guesses, ac && allSame words guesses) := by
  induction words with
  | nil => intro guesses ac _; simp [evalWords, rowOf, allSame]
  | cons word words ih =>
    intro guesses ac h
    obtain ⟨hlen, hpairs⟩ := h
    cases guesses with
    | nil => simp at hlen
    | cons guess guesses =>
      have hhead := hpairs (word, guess) (by simp)
      have htail : LongEnough words guesses :=
        ⟨by simpa using hlen, fun p hp => hpairs p (by simp [hp])⟩
      simp only [evalWords, wordFeedback_eq guess word ac hhead.2 hhead.1, ih guesses _ htail]
      simp [rowOf, allSame, Bool.and_assoc]

theorem evalWords_some (words : List (List Nat)) :
    ∀ (guesses : List (List Nat)) (ac : Bool) (r : List (List Mark) × Bool),
      evalWords words guesses ac = some r → LongEnough words guesses := by
  induction words with
  | nil => intro guesses ac r _; exact ⟨by simp, by simp⟩
  | cons word words ih =>
    intro guesses ac r h
    cases guesses with
    | nil => simp [evalWords] at h
    | cons guess guesses =>
      simp only [evalWords] at h
      cases h1 : wordFeedback guess word ac with
      | none => simp [h1] at h
      | some r1 =>
        obtain ⟨fb, ac1⟩ := r1
        simp only [h1] at h
        cases h2 : evalWords words guesses ac1 with
        | none => simp [h2] at h
        | some r2 =>
          have hw := wordFeedback_some_len guess word ac _ h1
          obtain ⟨hl, hp⟩ := ih guesses ac1 r2 h2
          refine ⟨by simpa using hl, ?_⟩
          intro p hp1
          simp only [List.zip_cons_cons, List.mem_cons] at hp1
          rcases hp1 with rfl | hp1
          · exact ⟨hw.2, hw.1⟩
          · exact hp p hp1

theorem upperAll_eq (mapUpper : List Nat → List Nat) (a : List (List Nat))
    (h : ∀ w, w ∈ a → w.length = wordLength) :
    upperAll mapUpper a = some (a.map (ToUpper mapUpper)) := by
  induction a with
  | nil => rfl
  | cons w ws ih =>
    have h1 : w.length = wordLength := h w (by simp)
    have h2 := ih (fun v hv => h v (by simp [hv]))
    simp [upperAll, h1, h2]

theorem upperAll_none (mapUpper : List Nat → List Nat) (a : List (List Nat))
    (h : ∃ w, w ∈ a ∧ w.length ≠ wordLength) : upperAll mapUpper a = none := by
  induction a with
  | nil => obtain ⟨w, hw, _⟩ := h; simp at hw
  | cons v vs ih =>
    by_cases hv : v.length = wordLength
    · obtain ⟨w, hw, hne⟩ := h
      simp only [List.mem_cons] at hw
      rcases hw with rfl | hw
      · exact absurd hv hne
      · simp [upperAll, hv, ih ⟨w, hw, hne⟩]
    · simp [upperAll, hv]

theorem MakeGuess_rejected (mapUpper : List Nat → List Nat) (g : SentenceGame)
    (a : List (List Nat)) (h : ¬ ShapeOK g a) :
    MakeGuess mapUpper g a = (g, some (rejection g)) := by
  unfold MakeGuess
  by_cases hlen : a.length = g.Words.length
  · have hw : ∃ w, w ∈ a ∧ w.length ≠ wordLength := by
      by_contra hno
      push_neg at hno
      exact h ⟨hlen, hno⟩
    simp [hlen, upperAll_none mapUpper a hw, rejection]
  · simp [hlen, rejection]

theorem MakeGuess_panicked (mapUpper : List Nat → List Nat) (g : SentenceGame)
    (a : List (List Nat)) (h : ShapeOK g a)
    (he : evalWords g.Words (a.map (ToUpper mapUpper)) true = none) :
    MakeGuess mapUpper g a =
      ({ g with Guesses := g.Guesses ++ [a.map (ToUpper mapUpper)] }, none) := by
  unfold MakeGuess
  simp [h.1, upperAll_eq mapUpper a h.2, he]

theorem MakeGuess_accepted (mapUpper : List Nat → List Nat) (g : SentenceGame)
    (a : List (List Nat)) (row : List (List Mark)) (ac : Bool) (h : ShapeOK g a)
    (he : evalWords g.Words (a.map (ToUpper mapUpper)) true = some (row, ac)) :
    MakeGuess mapUpper g a =
      (afterGuess g (a.map (ToUpper mapUpper)) row ac,
        some (acceptance (afterGuess g (a.map (ToUpper mapUpper)) row ac))) := by
  unfold MakeGuess
  simp only [h.1, ne_eq, not_true_eq_false, if_false, upperAll_eq mapUpper a h.2, he]
  cases ac with
  | true => simp [afterGuess, acceptance]
  | false =>
    by_cases hmax : maxGuesses ≤ g.Guesses.length + 1
    · simp [afterGuess, acceptance, hmax]
    · simp [afterGuess, acceptance, hmax]

/-- A call that returns `Valid = true` passed the shape check, ran the word loop
on words that are long enough, and left the game `afterGuess` with the
closed-form row; the response is a snapshot of that game. -/
theorem MakeGuess_valid_inv (mapUpper : List Nat → List Nat) (g : SentenceGame)
    (a : List (List Nat)) (r : GuessResponse)
    (hcall : (MakeGuess mapUpper g a).2 = some r) (hvalid : r.Valid = true) :
    ShapeOK g a ∧ LongEnough g.Words (a.map (ToUpper mapUpper)) ∧
      (MakeGuess mapUpper g a).1 =
        afterGuess g (a.map (ToUpper mapUpper)) (rowOf g.Words (a.map (ToUpper mapUpper)))
          (allSame g.Words (a.map (ToUpper mapUpper))) ∧
      r = acceptance (MakeGuess mapUpper g a).1 := by
  by_cases hshape : ShapeOK g a
  · cases he : evalWords g.Words (a.map (ToUpper mapUpper)) true with
    | none =>
      rw [MakeGuess_panicked mapUpper g a hshape he] at hcall
      simp at hcall
    | some res =>
      obtain ⟨row, ac⟩ := res
      have hlong := evalWords_some _ _ _ _ he
      have heq := evalWords_eq g.Words (a.map (ToUpper mapUpper)) true hlong
      rw [he] at heq
      simp only [Option.some.injEq, Prod.mk.injEq, Bool.true_and] at heq
      obtain ⟨hrow, hac⟩ := heq
      subst hrow; subst hac
      rw [MakeGuess_accepted mapUpper g a _ _ hshape he] at hcall ⊢
      simp only [Option.some.injEq] at hcall
      exact ⟨hshape, hlong, rfl, hcall.symm⟩
  · rw [MakeGuess_rejected mapUpper g a hshape] at hcall
    simp only [Option.some.injEq] at hcall
    rw [← hcall] at hvalid
    simp [rejection] at hvalid

/-- A call that returns `Valid = false` failed the shape check and left the game
as it was. -/
theorem MakeGuess_invalid_inv (mapUpper : List Nat → List Nat) (g : SentenceGame)
    (a : List (List Nat)) (r : GuessResponse)
    (hcall : (MakeGuess mapUpper g a).2 = some r) (hvalid : r.Valid = false) :
    ¬ ShapeOK g a ∧ (MakeGuess mapUpper g a).1 = g ∧ r = rejection g := by
  by_cases hshape : ShapeOK g a
  · cases he : evalWords g.Words (a.map (ToUpper mapUpper)) true with
    | none =>
      rw [MakeGuess_panicked mapUpper g a hshape he] at hcall
      simp at hcall
    | some res =>
      obtain ⟨row, ac⟩ := res
      rw [MakeGuess_accepted mapUpper g a _ _ hshape he] at hcall
      simp only [Option.some.injEq] at hcall
      rw [← hcall] at hvalid
      simp [acceptance] at hvalid
  · rw [MakeGuess_rejected mapUpper g a hshape] at hcall ⊢
    simp only [Option.some.injEq] at hcall
    exact ⟨hshape, rfl, hcall.symm⟩

/-- The row appended by an accepted call holds `markAt` at every position of every
word pair. -/
theorem lastFeedback_afterGuess (g : SentenceGame) (upper : List (List Nat)) (ac : Bool)
    (w i : Nat) (s gw : List Nat) (hs : g.Words[w]? = some s) (hg : upper[w]? = some gw)
    (hi : i < wordLength) :
    lastFeedback (afterGuess g upper (rowOf g.Words upper) ac) w i = some (markAt gw s i) := by
  have hrow : (rowOf g.Words upper)[w]? = some ((List.range wordLength).map (markAt gw s)) := by
    simp [rowOf, List.getElem?_zipWith, hs, hg]
  simp [lastFeedback, afterGuess, hrow, List.getElem?_range hi, hi]

/-! ## Counting credited letters -/

/-- The credited copies of a letter are its exact matches plus as many misplaced
copies as the secret has unmatched copies. -/
theorem creditedBefore_eq (g s : List Nat) (c : Option Nat) (n : Nat) :
    creditedBefore g s c n =
      exactBefore g s c n + min (misplacedBefore g s c n) (unmatched g s c) := by
  induction n with
  | zero => simp [creditedBefore, exactBefore, misplacedBefore]
  | succ n ih =>
    have hc : creditedBefore g s c (n + 1) = creditedBefore g s c n +
        (if g[n]? = c ∧ (markAt g s n = Mark.correct ∨ markAt g s n = Mark.present)
          then 1 else 0) := by
      simp only [creditedBefore, List.range_succ, List.countP_append, List.countP_cons,
        List.countP_nil]
      split_ifs <;> simp_all
    have he : exactBefore g s c (n + 1) = exactBefore g s c n +
        (if s[n]? = c ∧ g[n]? = s[n]? then 1 else 0) := by
      simp only [exactBefore, List.range_succ, List.countP_append, List.countP_cons,
        List.countP_nil]
      split_ifs <;> simp_all
    rw [hc, he, misplacedBefore_succ, ih]
    by_cases h1 : g[n]? = c
    · by_cases h2 : g[n]? = s[n]?
      · have h3 : s[n]? = c := by rw [← h2, h1]
        have h4 : markAt g s n = Mark.correct := (markAt_correct_iff g s n).mpr h2
        have e1 : (if g[n]? = c ∧ (markAt g s n = Mark.correct ∨ markAt g s n = Mark.present)
            then 1 else 0) = 1 := if_pos ⟨h1, Or.inl h4⟩
        have e2 : (if s[n]? = c ∧ g[n]? = s[n]? then 1 else 0) = 1 := if_pos ⟨h3, h2⟩
        have e3 : (if g[n]? = c ∧ g[n]? ≠ s[n]? then 1 else 0) = 0 := if_neg (fun h => h.2 h2)
        rw [e1, e2, e3]
        omega
      · have e2 : (if s[n]? = c ∧ g[n]? = s[n]? then 1 else 0) = 0 := if_neg (fun h => h2 h.2)
        have e3 : (if g[n]? = c ∧ g[n]? ≠ s[n]? then 1 else 0) = 1 := if_pos ⟨h1, h2⟩
        by_cases h5 : misplacedBefore g s c n < unmatched g s c
        · have h4 : markAt g s n = Mark.present := by
            unfold markAt
            rw [if_neg h2, h1, if_pos h5]
          have e1 : (if g[n]? = c ∧
              (markAt g s n = Mark.correct ∨ markAt g s n = Mark.present)
              then 1 else 0) = 1 := if_pos ⟨h1, Or.inr h4⟩
          rw [e1, e2, e3]
          omega
        · have h4 : markAt g s n = Mark.absent := by
            unfold markAt
            rw [if_neg h2, h1, if_neg h5]
          have e1 : (if g[n]? = c ∧
              (markAt g s n = Mark.correct ∨ markAt g s n = Mark.present)
              then 1 else 0) = 0 := by
            apply if_neg
            rw [h4]; rintro ⟨_, h | h⟩ <;> exact absurd h (by decide)
          rw [e1, e2, e3]
          omega
    · have e1 : (if g[n]? = c ∧ (markAt g s n = Mark.correct ∨ markAt g s n = Mark.present)
          then 1 else 0) = 0 := if_neg (fun h => h1 h.1)
      have e2 : (if s[n]? = c ∧ g[n]? = s[n]? then 1 else 0) = 0 :=
        if_neg (fun h => h1 (h.2.trans h.1))
      have e3 : (if g[n]? = c ∧ g[n]? ≠ s[n]? then 1 else 0) = 0 := if_neg (fun h => h1 h.1)
      rw [e1, e2, e3]
      omega

/-- The exact matches and the unmatched copies of a letter make up all its copies
among the first `wordLength` positions of the secret. -/
theorem exactBefore_add_unmatched (g s : List Nat) (c : Option Nat) :
    exactBefore g s c wordLength + unmatched g s c =
      (List.range wordLength).countP (fun k => decide (s[k]? = c)) := by
  unfold exactBefore unmatched
  generalize wordLength = n
  induction n with
  | zero => simp
  | succ n ih =>
    simp only [List.range_succ, List.countP_append, List.countP_cons, List.countP_nil]
    have e1 : ∀ (P : Prop) [Decidable P], (if decide P = true then 1 else 0) =
        (if P then 1 else 0) := by
      intro P _; by_cases hP : P <;> simp [hP]
    simp only [e1]
    by_cases h1 : s[n]? = c
    · by_cases h2 : g[n]? = s[n]?
      · rw [if_pos ⟨h1, h2⟩, if_neg (fun h => h.2 h2), if_pos h1]; omega
      · rw [if_neg (fun h => h2 h.2), if_pos ⟨h1, h2⟩, if_pos h1]; omega
    · rw [if_neg (fun h => h1 h.1), if_neg (fun h => h1 h.1), if_neg h1]; omega

theorem countP_range_getElem?_eq_count (s : List Nat) (c : Nat) :
    (List.range s.length).countP (fun k => decide (s[k]? = some c)) = s.count c := by
  induction s with
  | nil => simp
  | cons a t ih =>
    rw [List.length_cons, List.range_succ_eq_map, List.countP_cons, List.countP_map,
      List.count_cons, ← ih]
    congr 1
    · apply List.countP_congr
      intro k _
      simp
    · by_cases hac : a = c <;> simp [hac]

/-- Duplicate-letter conservation for the feedback rule. -/
theorem creditedBefore_le_count (g s : List Nat) (c : Nat) (hs : s.length = wordLength) :
    creditedBefore g s (some c) wordLength ≤ s.count c := by
  rw [creditedBefore_eq, ← countP_range_getElem?_eq_count, hs, ← exactBefore_add_unmatched g s]
  omega

theorem ToUpper_length_of_isASCII (mapUpper : List Nat → List Nat) (w : List Nat)
    (h : isASCII w = true) : (ToUpper mapUpper w).length = w.length := by
  simp [ToUpper, h]

theorem longEnough_of_shape (mapUpper : List Nat → List Nat) (g : SentenceGame)
    (a : List (List Nat)) (hshape : ShapeOK g a)
    (hwords : ∀ v, v ∈ g.Words → v.length = wordLength)
    (hupper : ∀ w, w ∈ a → wordLength ≤ (ToUpper mapUpper w).length) :
    LongEnough g.Words (a.map (ToUpper mapUpper)) := by
  refine ⟨by simp [hshape.1], ?_⟩
  rintro ⟨s, u⟩ hp
  obtain ⟨h1, h2⟩ := List.of_mem_zip hp
  obtain ⟨w, hw, rfl⟩ := List.mem_map.mp h2
  exact ⟨Nat.le_of_eq (hwords s h1).symm, hupper w hw⟩

theorem allSame_iff (words : List (List Nat)) :
    ∀ (guesses : List (List Nat)), allSame words guesses = true ↔
      ∀ (w : Nat) (s g : List Nat), words[w]? = some s → guesses[w]? = some g →
        ∀ i, i < wordLength → g[i]? = s[i]? := by
  induction words with
  | nil => intro guesses; simp [allSame]
  | cons word words ih =>
    intro guesses
    cases guesses with
    | nil => simp [allSame]
    | cons guess guesses =>
      have hcons : allSame (word :: words) (guess :: guesses) =
          (sameLetters guess word && allSame words guesses) := by
        simp [allSame]
      rw [hcons, Bool.and_eq_true, ih guesses, sameLetters_iff]
      constructor
      · rintro ⟨h1, h2⟩ w s g hs hg
        cases w with
        | zero =>
          simp only [List.getElem?_cons_zero, Option.some.injEq] at hs hg
          subst hs; subst hg; exact h1
        | succ w =>
          simp only [List.getElem?_cons_succ] at hs hg
          exact h2 w s g hs hg
      · intro h
        refine ⟨h 0 word guess (by simp) (by simp), fun w s g hs hg => ?_⟩
        exact h (w + 1) s g (by simpa using hs) (by simpa using hg)

/-! ## Invariants of the state machine -/

theorem flagsInv_new (words : List (List Nat)) : FlagsInv (NewSentenceGame words) := by
  simp [FlagsInv, NewSentenceGame, maxGuesses]

theorem flagsInv_reset (g : SentenceGame) : FlagsInv (handleNewGame g) := by
  simp [FlagsInv, handleNewGame, maxGuesses]

/-- A call that returns ends in the old game or in `afterGuess`. -/
theorem MakeGuess_returns_cases (mapUpper : List Nat → List Nat) (g : SentenceGame)
    (a : List (List Nat)) (h : (MakeGuess mapUpper g a).2.isSome = true) :
    (MakeGuess mapUpper g a).1 = g ∨
      ∃ row ac, (MakeGuess mapUpper g a).1 = afterGuess g (a.map (ToUpper mapUpper)) row ac := by
  obtain ⟨r, hr⟩ := Option.isSome_iff_exists.mp h
  cases hv : r.Valid with
  | false => exact Or.inl (MakeGuess_invalid_inv mapUpper g a r hr hv).2.1
  | true => exact Or.inr ⟨_, _, (MakeGuess_valid_inv mapUpper g a r hr hv).2.2.1⟩

theorem flagsInv_afterGuess (g : SentenceGame) (upper : List (List Nat))
    (row : List (List Mark)) (ac : Bool) (h : FlagsInv g) :
    FlagsInv (afterGuess g upper row ac) := by
  unfold FlagsInv at h ⊢
  simp only [afterGuess, List.length_append, List.length_singleton, Bool.or_eq_true,
    decide_eq_true_eq, h, maxGuesses]
  constructor
  · rintro ((h1 | h1) | (h1 | h1))
    · exact Or.inl (Or.inl h1)
    · exact Or.inr h1
    · exact Or.inl (Or.inr h1)
    · exact Or.inr (by omega)
  · rintro ((h1 | h1) | h1)
    · exact Or.inl (Or.inl h1)
    · exact Or.inr (Or.inl h1)
    · exact Or.inl (Or.inr h1)

theorem flagsInv_step (mapUpper : List Nat → List Nat) (g : SentenceGame) (act : Action)
    (h : FlagsInv g) (hret : returns mapUpper g act = true) :
    FlagsInv (step mapUpper g act) := by
  cases act with
  | reset => exact flagsInv_reset g
  | guess a =>
    rcases MakeGuess_returns_cases mapUpper g a hret with h1 | ⟨row, ac, h1⟩
    · show FlagsInv (MakeGuess mapUpper g a).1
      rw [h1]; exact h
    · show FlagsInv (MakeGuess mapUpper g a).1
      rw [h1]; exact flagsInv_afterGuess g _ row ac h

theorem flagsInv_run (mapUpper : List Nat → List Nat) (acts : List Action) :
    ∀ g, FlagsInv g → allReturn mapUpper g acts = true → FlagsInv (run mapUpper g acts) := by
  induction acts with
  | nil => intro g h _; exact h
  | cons act rest ih =>
    intro g h hret
    simp only [allReturn, Bool.and_eq_true] at hret
    exact ih (step mapUpper g act) (flagsInv_step mapUpper g act h hret.1) hret.2

theorem accepted_length (mapUpper : List Nat → List Nat) (g : SentenceGame)
    (a : List (List Nat)) (h : accepted mapUpper g a = true) :
    (MakeGuess mapUpper g a).1.Guesses.length = g.Guesses.length + 1 := by
  unfold accepted at h
  cases hr : (MakeGuess mapUpper g a).2 with
  | none => simp [hr] at h
  | some r =>
    simp only [hr] at h
    rw [(MakeGuess_valid_inv mapUpper g a r hr h).2.2.1]
    simp [afterGuess]

theorem run_accepted_length (mapUpper : List Nat → List Nat)
    (attempts : List (List (List Nat))) :
    ∀ g, allAccepted mapUpper g attempts = true →
      (run mapUpper g (attempts.map Action.guess)).Guesses.length =
        g.Guesses.length + attempts.length := by
  induction attempts with
  | nil => intro g _; rfl
  | cons a rest ih =>
    intro g h
    simp only [allAccepted, Bool.and_eq_true] at h
    have h1 := ih (MakeGuess mapUpper g a).1 h.2
    have h2 := accepted_length mapUpper g a h.1
    simp only [run, List.map_cons, List.foldl_cons, step, List.length_cons] at h1 ⊢
    omega

theorem boundedInv_step (mapUpper : List Nat → List Nat) (g : SentenceGame) (act : Action)
    (h : BoundedInv g) (hplay : inPlay mapUpper g act = true) :
    BoundedInv (step mapUpper g act) := by
  cases act with
  | reset => exact ⟨flagsInv_reset g, Nat.zero_le _⟩
  | guess a =>
    simp only [inPlay, Bool.and_eq_true, Bool.not_eq_true'] at hplay
    obtain ⟨hover, hret⟩ := hplay
    have hflags := flagsInv_step mapUpper g (Action.guess a) h.1 hret
    refine ⟨hflags, ?_⟩
    have hroom : ¬ maxGuesses ≤ g.Guesses.length := by
      intro hfull
      have := h.1.mpr (Or.inr hfull)
      rw [hover] at this
      exact absurd this (by decide)
    rcases MakeGuess_returns_cases mapUpper g a hret with h1 | ⟨row, ac, h1⟩
    · show (MakeGuess mapUpper g a).1.Guesses.length ≤ maxGuesses
      rw [h1]; exact h.2
    · show (MakeGuess mapUpper g a).1.Guesses.length ≤ maxGuesses
      rw [h1]
      simp only [afterGuess, List.length_append, List.length_singleton]
      omega

theorem boundedInv_run (mapUpper : List Nat → List Nat) (acts : List Action) :
    ∀ g, BoundedInv g → allInPlay mapUpper g acts = true →
      BoundedInv (run mapUpper g acts) := by
  induction acts with
  | nil => intro g h _; exact h
  | cons act rest ih =>
    intro g h hplay
    simp only [allInPlay, Bool.and_eq_true] at hplay
    exact ih (step mapUpper g act) (boundedInv_step mapUpper g act h hplay.1) hplay.2

/-- The three ways a call can leave the game: untouched, with the attempt appended
before a panic, or `afterGuess`. -/
theorem MakeGuess_state_cases (mapUpper : List Nat → List Nat) (g : SentenceGame)
    (a : List (List Nat)) :
    (MakeGuess mapUpper g a).1 = g ∨
      (MakeGuess mapUpper g a).1 =
        { g with Guesses := g.Guesses ++ [a.map (ToUpper mapUpper)] } ∨
      ∃ row ac, evalWords g.Words (a.map (ToUpper mapUpper)) true = some (row, ac) ∧
        MakeGuess mapUpper g a =
          (afterGuess g (a.map (ToUpper mapUpper)) row ac,
            some (acceptance (afterGuess g (a.map (ToUpper mapUpper)) row ac))) := by
  by_cases hshape : ShapeOK g a
  · cases he : evalWords g.Words (a.map (ToUpper mapUpper)) true with
    | none =>
      right; left
      rw [MakeGuess_panicked mapUpper g a hshape he]
    | some res =>
      obtain ⟨row, ac⟩ := res
      right; right
      exact ⟨row, ac, rfl, MakeGuess_accepted mapUpper g a row ac hshape he⟩
  · left
    rw [MakeGuess_rejected mapUpper g a hshape]

/-! ## Claims: the feedback of an accepted attempt -/

/-- C1: for an accepted attempt, a secret word `s` and its uppercased guess word
`g`, both of length 5, and a position `i` with `g[i] ≠ s[i]`, the feedback that
`MakeGuess` appends for position `i` is `present` exactly when fewer misplaced
copies of the letter `g[i]` stand before `i` in the guess than the secret has
unmatched copies of it, and `absent` otherwise. -/
theorem C1_present_iff_unconsumed_copy (mapUpper : List Nat → List Nat) (game : SentenceGame)
    (attempt : List (List Nat)) (r : GuessResponse)
    (hcall : (MakeGuess mapUpper game attempt).2 = some r) (hvalid : r.Valid = true)
    (w : Nat) (s g : List Nat) (hs : game.Words[w]? = some s)
    (hg : (attempt.map (ToUpper mapUpper))[w]? = some g)
    (_hslen : s.length = wordLength) (_hglen : g.length = wordLength)
    (i : Nat) (hi : i < wordLength) (hne : g[i]? ≠ s[i]?) :
    (lastFeedback (MakeGuess mapUpper game attempt).1 w i = some Mark.present ↔
        misplacedBefore g s g[i]? i < unmatched g s g[i]?) ∧
      (lastFeedback (MakeGuess mapUpper game attempt).1 w i = some Mark.absent ↔
        ¬ misplacedBefore g s g[i]? i < unmatched g s g[i]?) := by
  obtain ⟨_, _, hstate, _⟩ := MakeGuess_valid_inv mapUpper game attempt r hcall hvalid
  rw [hstate, lastFeedback_afterGuess game _ _ w i s g hs hg hi]
  unfold markAt
  rw [if_neg hne]
  by_cases hlt : misplacedBefore g s g[i]? i < unmatched g s g[i]? <;> simp [hlt]

/-- C1 at secret APPLE, guess ALLOT: the row is correct, present, absent, absent,
absent, and the theorem applies at the first L (position 1). -/
theorem C1_present_iff_unconsumed_copy_witness :
    ((MakeGuess id (NewSentenceGame [APPLE]) [ALLOT]).2 =
        some (acceptance (MakeGuess id (NewSentenceGame [APPLE]) [ALLOT]).1) ∧
      (acceptance (MakeGuess id (NewSentenceGame [APPLE]) [ALLOT]).1).Valid = true ∧
      (NewSentenceGame [APPLE]).Words[0]? = some APPLE ∧
      ([ALLOT].map (ToUpper id))[0]? = some ALLOT ∧
      APPLE.length = wordLength ∧ ALLOT.length = wordLength ∧ 1 < wordLength ∧
      ALLOT[1]? ≠ APPLE[1]?) ∧
    (MakeGuess id (NewSentenceGame [APPLE]) [ALLOT]).1.Feedback =
      [[[Mark.correct, Mark.present, Mark.absent, Mark.absent, Mark.absent]]] ∧
    ((lastFeedback (MakeGuess id (NewSentenceGame [APPLE]) [ALLOT]).1 0 1 = some Mark.present ↔
        misplacedBefore ALLOT APPLE ALLOT[1]? 1 < unmatched ALLOT APPLE ALLOT[1]?) ∧
      (lastFeedback (MakeGuess id (NewSentenceGame [APPLE]) [ALLOT]).1 0 1 = some Mark.absent ↔
        ¬ misplacedBefore ALLOT APPLE ALLOT[1]? 1 < unmatched ALLOT APPLE ALLOT[1]?)) :=
  ⟨by decide, by decide,
    C1_present_iff_unconsumed_copy id (NewSentenceGame [APPLE]) [ALLOT]
      (acceptance (MakeGuess id (NewSentenceGame [APPLE]) [ALLOT]).1) (by decide) (by decide)
      0 APPLE ALLOT (by decide) (by decide) (by decide) (by decide) 1 (by decide) (by decide)⟩

/-- C2: in a game whose secret words all have length 5, for an accepted attempt,
the feedback appended at word `w`, position `i` is `correct` exactly when the
uppercased guess word and the secret word hold the same letter at `i`. -/
theorem C2_correct_iff_same_letter (mapUpper : List Nat → List Nat) (game : SentenceGame)
    (attempt : List (List Nat)) (r : GuessResponse)
    (_hwords : ∀ v, v ∈ game.Words → v.length = wordLength)
    (hcall : (MakeGuess mapUpper game attempt).2 = some r) (hvalid : r.Valid = true)
    (w : Nat) (s g : List Nat) (hs : game.Words[w]? = some s)
    (hg : (attempt.map (ToUpper mapUpper))[w]? = some g) (i : Nat) (hi : i < wordLength) :
    lastFeedback (MakeGuess mapUpper game attempt).1 w i = some Mark.correct ↔
      g[i]? = s[i]? := by
  obtain ⟨_, _, hstate, _⟩ := MakeGuess_valid_inv mapUpper game attempt r hcall hvalid
  rw [hstate, lastFeedback_afterGuess game _ _ w i s g hs hg hi, Option.some.injEq]
  exact markAt_correct_iff g s i

/-- C2 at secret APPLE, MANGO and the lowercase attempt apple, MANGO: word 0 is
uppercased to APPLE and position 3 is correct. -/
theorem C2_correct_iff_same_letter_witness :
    ((∀ v, v ∈ (NewSentenceGame [APPLE, MANGO]).Words → v.length = wordLength) ∧
      (MakeGuess id (NewSentenceGame [APPLE, MANGO]) [apple, MANGO]).2 =
        some (acceptance (MakeGuess id (NewSentenceGame [APPLE, MANGO]) [apple, MANGO]).1) ∧
      (acceptance (MakeGuess id (NewSentenceGame [APPLE, MANGO]) [apple, MANGO]).1).Valid
        = true ∧
      (NewSentenceGame [APPLE, MANGO]).Words[0]? = some APPLE ∧
      ([apple, MANGO].map (ToUpper id))[0]? = some APPLE ∧ 3 < wordLength) ∧
    (lastFeedback (MakeGuess id (NewSentenceGame [APPLE, MANGO]) [apple, MANGO]).1 0 3
        = some Mark.correct ↔ APPLE[3]? = APPLE[3]?) :=
  ⟨by decide,
    C2_correct_iff_same_letter id (NewSentenceGame [APPLE, MANGO]) [apple, MANGO]
      (acceptance (MakeGuess id (NewSentenceGame [APPLE, MANGO]) [apple, MANGO]).1)
      (by decide) (by decide) (by decide) 0 APPLE APPLE (by decide) (by decide) 3
      (by decide)⟩

/-- C3: duplicate-letter conservation.  For an accepted attempt, a secret word `s`
and its uppercased guess word `g`, both of length 5, and a letter `c`, the number
of positions of `g` that hold `c` and are marked `correct` or `present` is at
most the number of occurrences of `c` in `s`. -/
theorem C3_duplicate_letter_conservation (mapUpper : List Nat → List Nat)
    (game : SentenceGame) (attempt : List (List Nat)) (r : GuessResponse)
    (hcall : (MakeGuess mapUpper game attempt).2 = some r) (hvalid : r.Valid = true)
    (w : Nat) (s g : List Nat) (hs : game.Words[w]? = some s)
    (hg : (attempt.map (ToUpper mapUpper))[w]? = some g)
    (hslen : s.length = wordLength) (_hglen : g.length = wordLength) (c : Nat) :
    (List.range wordLength).countP
        (fun i => decide (g[i]? = some c ∧
          (lastFeedback (MakeGuess mapUpper game attempt).1 w i = some Mark.correct ∨
            lastFeedback (MakeGuess mapUpper game attempt).1 w i = some Mark.present)))
      ≤ s.count c := by
  obtain ⟨_, _, hstate, _⟩ := MakeGuess_valid_inv mapUpper game attempt r hcall hvalid
  have hcount := creditedBefore_le_count g s c hslen
  unfold creditedBefore at hcount
  refine Nat.le_trans (Nat.le_of_eq ?_) hcount
  apply countP_range_congr
  intro i hi
  rw [hstate, lastFeedback_afterGuess game _ _ w i s g hs hg hi]
  simp

/-- C3 at secret ROBOT, guess BOOBS and the letter B (66): the guess holds two
copies of B, one is credited, and ROBOT holds one. -/
theorem C3_duplicate_letter_conservation_witness :
    ((MakeGuess id (NewSentenceGame [ROBOT]) [BOOBS]).2 =
        some (acceptance (MakeGuess id (NewSentenceGame [ROBOT]) [BOOBS]).1) ∧
      (acceptance (MakeGuess id (NewSentenceGame [ROBOT]) [BOOBS]).1).Valid = true ∧
      (NewSentenceGame [ROBOT]).Words[0]? = some ROBOT ∧
      ([BOOBS].map (ToUpper id))[0]? = some BOOBS ∧
      ROBOT.length = wordLength ∧ BOOBS.length = wordLength) ∧
    (MakeGuess id (NewSentenceGame [ROBOT]) [BOOBS]).1.Feedback =
      [[[Mark.present, Mark.correct, Mark.present, Mark.absent, Mark.absent]]] ∧
    (List.range wordLength).countP
        (fun i => decide (BOOBS[i]? = some 66 ∧
          (lastFeedback (MakeGuess id (NewSentenceGame [ROBOT]) [BOOBS]).1 0 i
              = some Mark.correct ∨
            lastFeedback (MakeGuess id (NewSentenceGame [ROBOT]) [BOOBS]).1 0 i
              = some Mark.present)))
      ≤ ROBOT.count 66 :=
  ⟨by decide, by decide,
    C3_duplicate_letter_conservation id (NewSentenceGame [ROBOT]) [BOOBS]
      (acceptance (MakeGuess id (NewSentenceGame [ROBOT]) [BOOBS]).1) (by decide) (by decide)
      0 ROBOT BOOBS (by decide) (by decide) (by decide) (by decide) 66⟩

/-! ## Claims: rejection and acceptance -/

/-- C4: when `MakeGuess` returns `Valid = false`, the attempt failed the shape
check (its number of words differs from the secret, or one of its words does not
have length 5), and `Guesses`, `Feedback`, `GameOver` and `Won` of the game are
what they were before the call. -/
theorem C4_rejected_attempt_leaves_state (mapUpper : List Nat → List Nat)
    (game : SentenceGame) (attempt : List (List Nat)) (r : GuessResponse)
    (hcall : (MakeGuess mapUpper game attempt).2 = some r) (hrej : r.Valid = false) :
    (attempt.length ≠ game.Words.length ∨ ∃ w, w ∈ attempt ∧ w.length ≠ wordLength) ∧
      (MakeGuess mapUpper game attempt).1.Guesses = game.Guesses ∧
      (MakeGuess mapUpper game attempt).1.Feedback = game.Feedback ∧
      (MakeGuess mapUpper game attempt).1.GameOver = game.GameOver ∧
      (MakeGuess mapUpper game attempt).1.Won = game.Won ∧
      (MakeGuess mapUpper game attempt).1 = game := by
  obtain ⟨hshape, hstate, _⟩ := MakeGuess_invalid_inv mapUpper game attempt r hcall hrej
  rw [hstate]
  refine ⟨?_, rfl, rfl, rfl, rfl, rfl⟩
  by_cases hlen : attempt.length = game.Words.length
  · right
    by_contra hno
    push_neg at hno
    exact hshape ⟨hlen, hno⟩
  · exact Or.inl hlen

/-- C4 at secret APPLE, MANGO and attempt PLAN, MANGO, whose first word has
length 4. -/
theorem C4_rejected_attempt_leaves_state_witness :
    ((MakeGuess id (NewSentenceGame [APPLE, MANGO]) [PLAN, MANGO]).2 =
        some (rejection (NewSentenceGame [APPLE, MANGO])) ∧
      (rejection (NewSentenceGame [APPLE, MANGO])).Valid = false) ∧
    (([PLAN, MANGO].length ≠ (NewSentenceGame [APPLE, MANGO]).Words.length ∨
        ∃ w, w ∈ [PLAN, MANGO] ∧ w.length ≠ wordLength) ∧
      (MakeGuess id (NewSentenceGame [APPLE, MANGO]) [PLAN, MANGO]).1.Guesses =
        (NewSentenceGame [APPLE, MANGO]).Guesses ∧
      (MakeGuess id (NewSentenceGame [APPLE, MANGO]) [PLAN, MANGO]).1.Feedback =
        (NewSentenceGame [APPLE, MANGO]).Feedback ∧
      (MakeGuess id (NewSentenceGame [APPLE, MANGO]) [PLAN, MANGO]).1.GameOver =
        (NewSentenceGame [APPLE, MANGO]).GameOver ∧
      (MakeGuess id (NewSentenceGame [APPLE, MANGO]) [PLAN, MANGO]).1.Won =
        (NewSentenceGame [APPLE, MANGO]).Won ∧
      (MakeGuess id (NewSentenceGame [APPLE, MANGO]) [PLAN, MANGO]).1 =
        NewSentenceGame [APPLE, MANGO]) :=
  ⟨by decide,
    C4_rejected_attempt_leaves_state id (NewSentenceGame [APPLE, MANGO]) [PLAN, MANGO]
      (rejection (NewSentenceGame [APPLE, MANGO])) (by decide) (by decide)⟩

/-- In every game and for every attempt, `MakeGuess` returns `Valid = false`
exactly when the shape check fails: the attempt has another number of words than
the secret, or one of its words does not have length 5.  The flags of the game
play no part. -/
theorem MakeGuess_invalid_iff_not_shape (mapUpper : List Nat → List Nat)
    (game : SentenceGame) (attempt : List (List Nat)) :
    (∃ r, (MakeGuess mapUpper game attempt).2 = some r ∧ r.Valid = false) ↔
      ¬ (attempt.length = game.Words.length ∧ ∀ w, w ∈ attempt → w.length = wordLength) := by
  constructor
  · rintro ⟨r, hcall, hvalid⟩
    exact (MakeGuess_invalid_inv mapUpper game attempt r hcall hvalid).1
  · intro hshape
    rw [MakeGuess_rejected mapUpper game attempt hshape]
    exact ⟨_, rfl, rfl⟩

/-- In a game whose secret words all have length 5, for an attempt of ASCII words
of any number and lengths, `MakeGuess` returns `Valid = true` exactly when the
attempt passes the shape check. -/
theorem MakeGuess_valid_iff_shape_of_isASCII (mapUpper : List Nat → List Nat)
    (game : SentenceGame) (attempt : List (List Nat))
    (hwords : ∀ v, v ∈ game.Words → v.length = wordLength)
    (hascii : ∀ w, w ∈ attempt → isASCII w = true) :
    (∃ r, (MakeGuess mapUpper game attempt).2 = some r ∧ r.Valid = true) ↔
      (attempt.length = game.Words.length ∧ ∀ w, w ∈ attempt → w.length = wordLength) := by
  constructor
  · rintro ⟨r, hcall, hvalid⟩
    exact (MakeGuess_valid_inv mapUpper game attempt r hcall hvalid).1
  · intro hshape
    have hupper : ∀ w, w ∈ attempt → wordLength ≤ (ToUpper mapUpper w).length := by
      intro w hw
      rw [ToUpper_length_of_isASCII mapUpper w (hascii w hw), hshape.2 w hw]
    have hlong := longEnough_of_shape mapUpper game attempt hshape hwords hupper
    have he := evalWords_eq game.Words (attempt.map (ToUpper mapUpper)) true hlong
    rw [MakeGuess_accepted mapUpper game attempt _ _ hshape he]
    exact ⟨_, rfl, rfl⟩

/-- C5 fails at the attempt "ſabc" in the fresh game with secret APPLE: the
attempt has one word, as the secret has, and the word has length 5, yet no
response with `Valid = true` is returned: `strings.ToUpper` gives SABC of 4 bytes
and the call panics at `guess[4]`.  The same slip in `main`, which checks the
length of a secret word before `strings.ToUpper`, serves the 4-byte secret SABC
for the argument "ſabc", and there the attempt HELLO panics at `word[4]`. -/
theorem C5_well_shaped_attempt_gets_no_response :
    ([longSabc].length = (NewSentenceGame [APPLE]).Words.length ∧
      ∀ w, w ∈ [longSabc] → w.length = wordLength) ∧
    (MakeGuess goMapUpper (NewSentenceGame [APPLE]) [longSabc]).2 = none ∧
    ¬ ((∃ r, (MakeGuess goMapUpper (NewSentenceGame [APPLE]) [longSabc]).2 = some r ∧
          r.Valid = true) ↔
        ([longSabc].length = (NewSentenceGame [APPLE]).Words.length ∧
          ∀ w, w ∈ [longSabc] → w.length = wordLength)) ∧
    main goMapUpper [longSabc] = some (NewSentenceGame [SABC]) ∧
    ([HELLO].length = (NewSentenceGame [SABC]).Words.length ∧
      ∀ w, w ∈ [HELLO] → w.length = wordLength) ∧
    (MakeGuess goMapUpper (NewSentenceGame [SABC]) [HELLO]).2 = none := by
  have h1 : [longSabc].length = (NewSentenceGame [APPLE]).Words.length ∧
      ∀ w, w ∈ [longSabc] → w.length = wordLength := by decide
  have h2 : (MakeGuess goMapUpper (NewSentenceGame [APPLE]) [longSabc]).2 = none := by decide
  refine ⟨h1, h2, ?_, by decide, by decide, by decide⟩
  intro hiff
  obtain ⟨r, hr, _⟩ := hiff.mpr h1
  rw [h2] at hr
  exact absurd hr (by simp)

/-! ## Claims: winning, the histories and the state machine -/

/-- C6: in a game whose secret words all have length 5 and whose `Won` flag is
false, after an accepted attempt `Won` is true, in the game and in the response,
exactly when every uppercased guess word holds the letter of its secret word at
every position; and then `GameOver` is true in the game and in the response. -/
theorem C6_won_iff_all_words_match (mapUpper : List Nat → List Nat) (game : SentenceGame)
    (attempt : List (List Nat)) (r : GuessResponse)
    (_hwords : ∀ v, v ∈ game.Words → v.length = wordLength) (hwon : game.Won = false)
    (hcall : (MakeGuess mapUpper game attempt).2 = some r) (hvalid : r.Valid = true) :
    (((MakeGuess mapUpper game attempt).1.Won = true ∧ r.Won = true) ↔
        ∀ (w : Nat) (s g : List Nat), game.Words[w]? = some s → (attempt.map (ToUpper mapUpper))[w]? = some g →
          ∀ i, i < wordLength → g[i]? = s[i]?) ∧
      r.Won = (MakeGuess mapUpper game attempt).1.Won ∧
      ((MakeGuess mapUpper game attempt).1.Won = true →
        (MakeGuess mapUpper game attempt).1.GameOver = true ∧ r.GameOver = true) := by
  obtain ⟨_, _, hstate, hresp⟩ := MakeGuess_valid_inv mapUpper game attempt r hcall hvalid
  have hrw : r.Won = (MakeGuess mapUpper game attempt).1.Won := by rw [hresp]; rfl
  have hrg : r.GameOver = (MakeGuess mapUpper game attempt).1.GameOver := by rw [hresp]; rfl
  have hw : (MakeGuess mapUpper game attempt).1.Won =
      allSame game.Words (attempt.map (ToUpper mapUpper)) := by
    rw [hstate]; simp [afterGuess, hwon]
  have hg : (MakeGuess mapUpper game attempt).1.GameOver =
      (allSame game.Words (attempt.map (ToUpper mapUpper)) ||
        decide (maxGuesses ≤ game.Guesses.length + 1) || game.GameOver) := by
    rw [hstate]; rfl
  refine ⟨?_, hrw, ?_⟩
  · rw [hrw, and_self, hw]
    exact allSame_iff game.Words _
  · intro h
    rw [hrg, hg]
    rw [hw] at h
    simp [h]

/-- C6 at secret APPLE, attempt APPLE on a fresh game: all feedback is correct,
`GameOver` and `Won` are set. -/
theorem C6_won_iff_all_words_match_witness :
    ((∀ v, v ∈ (NewSentenceGame [APPLE]).Words → v.length = wordLength) ∧
      (NewSentenceGame [APPLE]).Won = false ∧
      (MakeGuess id (NewSentenceGame [APPLE]) [APPLE]).2 =
        some { Valid := true, GameOver := true, Won := true, Words := [APPLE],
               Guesses := [[APPLE]],
               Feedback := [[[Mark.correct, Mark.correct, Mark.correct, Mark.correct,
                 Mark.correct]]] }) ∧
    ((((MakeGuess id (NewSentenceGame [APPLE]) [APPLE]).1.Won = true ∧ true = true) ↔
        ∀ (w : Nat) (s g : List Nat), (NewSentenceGame [APPLE]).Words[w]? = some s →
          ([APPLE].map (ToUpper id))[w]? = some g → ∀ i, i < wordLength → g[i]? = s[i]?) ∧
      true = (MakeGuess id (NewSentenceGame [APPLE]) [APPLE]).1.Won ∧
      ((MakeGuess id (NewSentenceGame [APPLE]) [APPLE]).1.Won = true →
        (MakeGuess id (NewSentenceGame [APPLE]) [APPLE]).1.GameOver = true ∧ true = true)) :=
  ⟨by decide,
    C6_won_iff_all_words_match id (NewSentenceGame [APPLE]) [APPLE]
      { Valid := true, GameOver := true, Won := true, Words := [APPLE],
        Guesses := [[APPLE]],
        Feedback := [[[Mark.correct, Mark.correct, Mark.correct, Mark.correct,
          Mark.correct]]] }
      (by decide) (by decide) (by decide) rfl⟩

/-- In every state reached from a fresh game by resets and by `MakeGuess` calls
that return a response, `GameOver` is true exactly when `Won` is true or the guess
history holds at least 6 attempts; so `Won` implies `GameOver`, and after `k`
accepted attempts from a fresh game that leave `Won` false the history holds `k`
attempts and `GameOver` is true exactly when `6 ≤ k`. -/
theorem gameOver_iff_won_or_full_of_allReturn (mapUpper : List Nat → List Nat)
    (words : List (List Nat)) (acts : List Action)
    (hret : allReturn mapUpper (NewSentenceGame words) acts = true) :
    ((run mapUpper (NewSentenceGame words) acts).GameOver = true ↔
        ((run mapUpper (NewSentenceGame words) acts).Won = true ∨
          maxGuesses ≤ (run mapUpper (NewSentenceGame words) acts).Guesses.length)) ∧
      ((run mapUpper (NewSentenceGame words) acts).Won = true →
        (run mapUpper (NewSentenceGame words) acts).GameOver = true) ∧
      (∀ attempts : List (List (List Nat)), acts = attempts.map Action.guess →
        allAccepted mapUpper (NewSentenceGame words) attempts = true →
        (run mapUpper (NewSentenceGame words) acts).Won = false →
        (run mapUpper (NewSentenceGame words) acts).Guesses.length = attempts.length ∧
          ((run mapUpper (NewSentenceGame words) acts).GameOver = true ↔
            maxGuesses ≤ attempts.length)) := by
  have hinv := flagsInv_run mapUpper acts _ (flagsInv_new words) hret
  unfold FlagsInv at hinv
  refine ⟨hinv, fun h => hinv.mpr (Or.inl h), ?_⟩
  intro attempts hacts hacc hwon
  have hlen := run_accepted_length mapUpper attempts (NewSentenceGame words) hacc
  rw [← hacts] at hlen
  have hlen1 : (run mapUpper (NewSentenceGame words) acts).Guesses.length =
      attempts.length := by
    rw [hlen]; simp [NewSentenceGame]
  refine ⟨hlen1, ?_⟩
  rw [hinv, hlen1, hwon]
  simp

/-- C7 fails in the fresh game with secret APPLE after six attempts "ſabc": each
call passes the shape check, appends the attempt to `Guesses` and panics at
`guess[4]` before the flags are set, so the history holds 6 attempts while
`GameOver` is false. -/
theorem C7_six_panicking_attempts_not_over :
    (∀ v, v ∈ (NewSentenceGame [APPLE]).Words → v.length = wordLength) ∧
    (MakeGuess goMapUpper (NewSentenceGame [APPLE]) [longSabc]).2 = none ∧
    (run goMapUpper (NewSentenceGame [APPLE])
      (List.replicate 6 (Action.guess [longSabc]))).Guesses.length = 6 ∧
    (run goMapUpper (NewSentenceGame [APPLE])
      (List.replicate 6 (Action.guess [longSabc]))).GameOver = false ∧
    (run goMapUpper (NewSentenceGame [APPLE])
      (List.replicate 6 (Action.guess [longSabc]))).Won = false ∧
    ¬ ((run goMapUpper (NewSentenceGame [APPLE])
          (List.replicate 6 (Action.guess [longSabc]))).GameOver = true ↔
        ((run goMapUpper (NewSentenceGame [APPLE])
            (List.replicate 6 (Action.guess [longSabc]))).Won = true ∨
          maxGuesses ≤ (run goMapUpper (NewSentenceGame [APPLE])
            (List.replicate 6 (Action.guess [longSabc]))).Guesses.length)) := by
  decide

/-- C8: after an accepted attempt `Guesses` is the old `Guesses` with the
uppercased attempt appended, and `Feedback` is the old `Feedback` with the row
computed by the word loop for this attempt appended; both histories grow by one
entry and their earlier entries stay in place. -/
theorem C8_histories_grow_by_one (mapUpper : List Nat → List Nat) (game : SentenceGame)
    (attempt : List (List Nat)) (r : GuessResponse)
    (hcall : (MakeGuess mapUpper game attempt).2 = some r) (hvalid : r.Valid = true) :
    (MakeGuess mapUpper game attempt).1.Guesses =
        game.Guesses ++ [attempt.map (ToUpper mapUpper)] ∧
      (∃ row ac, evalWords game.Words (attempt.map (ToUpper mapUpper)) true = some (row, ac) ∧
        (MakeGuess mapUpper game attempt).1.Feedback = game.Feedback ++ [row]) ∧
      (MakeGuess mapUpper game attempt).1.Guesses.length = game.Guesses.length + 1 ∧
      (MakeGuess mapUpper game attempt).1.Feedback.length = game.Feedback.length + 1 ∧
      (∀ k, k < game.Guesses.length →
        (MakeGuess mapUpper game attempt).1.Guesses[k]? = game.Guesses[k]?) ∧
      (∀ k, k < game.Feedback.length →
        (MakeGuess mapUpper game attempt).1.Feedback[k]? = game.Feedback[k]?) := by
  obtain ⟨_, hlong, hstate, _⟩ := MakeGuess_valid_inv mapUpper game attempt r hcall hvalid
  have he := evalWords_eq game.Words (attempt.map (ToUpper mapUpper)) true hlong
  rw [hstate]
  refine ⟨rfl, ⟨_, _, he, rfl⟩, by simp [afterGuess], by simp [afterGuess], ?_, ?_⟩
  · intro k hk
    simp [afterGuess, List.getElem?_append_left hk]
  · intro k hk
    simp [afterGuess, List.getElem?_append_left hk]

/-- C8 at a game with one earlier attempt (HELLO against APPLE) and the new
lowercase attempt apple: the uppercase APPLE and its row are appended after the
earlier entries. -/
theorem C8_histories_grow_by_one_witness :
    ((MakeGuess id (MakeGuess id (NewSentenceGame [APPLE]) [HELLO]).1 [apple]).2 =
        some (acceptance
          (MakeGuess id (MakeGuess id (NewSentenceGame [APPLE]) [HELLO]).1 [apple]).1) ∧
      (acceptance
        (MakeGuess id (MakeGuess id (NewSentenceGame [APPLE]) [HELLO]).1 [apple]).1).Valid
        = true) ∧
    (MakeGuess id (MakeGuess id (NewSentenceGame [APPLE]) [HELLO]).1 [apple]).1.Guesses =
      [[HELLO], [APPLE]] ∧
    ((MakeGuess id (MakeGuess id (NewSentenceGame [APPLE]) [HELLO]).1 [apple]).1.Guesses =
        (MakeGuess id (NewSentenceGame [APPLE]) [HELLO]).1.Guesses ++
          [[apple].map (ToUpper id)] ∧
      (∃ row ac, evalWords (MakeGuess id (NewSentenceGame [APPLE]) [HELLO]).1.Words
          ([apple].map (ToUpper id)) true = some (row, ac) ∧
        (MakeGuess id (MakeGuess id (NewSentenceGame [APPLE]) [HELLO]).1 [apple]).1.Feedback =
          (MakeGuess id (NewSentenceGame [APPLE]) [HELLO]).1.Feedback ++ [row]) ∧
      (MakeGuess id (MakeGuess id (NewSentenceGame [APPLE]) [HELLO]).1 [apple]).1.Guesses.length
        = (MakeGuess id (NewSentenceGame [APPLE]) [HELLO]).1.Guesses.length + 1 ∧
      (MakeGuess id (MakeGuess id (NewSentenceGame [APPLE]) [HELLO]).1 [apple]).1.Feedback.length
        = (MakeGuess id (NewSentenceGame [APPLE]) [HELLO]).1.Feedback.length + 1 ∧
      (∀ k, k < (MakeGuess id (NewSentenceGame [APPLE]) [HELLO]).1.Guesses.length →
        (MakeGuess id (MakeGuess id (NewSentenceGame [APPLE]) [HELLO]).1 [apple]).1.Guesses[k]?
          = (MakeGuess id (NewSentenceGame [APPLE]) [HELLO]).1.Guesses[k]?) ∧
      (∀ k, k < (MakeGuess id (NewSentenceGame [APPLE]) [HELLO]).1.Feedback.length →
        (MakeGuess id (MakeGuess id (NewSentenceGame [APPLE]) [HELLO]).1 [apple]).1.Feedback[k]?
          = (MakeGuess id (NewSentenceGame [APPLE]) [HELLO]).1.Feedback[k]?)) :=
  ⟨by decide, by decide,
    C8_histories_grow_by_one id (MakeGuess id (NewSentenceGame [APPLE]) [HELLO]).1 [apple]
      (acceptance (MakeGuess id (MakeGuess id (NewSentenceGame [APPLE]) [HELLO]).1 [apple]).1)
      (by decide) (by decide)⟩

/-- C9, amended: in every state reached from a fresh game by resets and by
`MakeGuess` calls that return a response and are each made while `GameOver` is
false, the guess history holds at most 6 attempts.  `MakeGuess` itself has no
check of `GameOver`. -/
theorem C9_history_at_most_six_in_play (mapUpper : List Nat → List Nat)
    (words : List (List Nat)) (acts : List Action)
    (hplay : allInPlay mapUpper (NewSentenceGame words) acts = true) :
    (run mapUpper (NewSentenceGame words) acts).Guesses.length ≤ maxGuesses :=
  (boundedInv_run mapUpper acts _
    ⟨flagsInv_new words, by simp [NewSentenceGame]⟩ hplay).2

/-- C9 at six attempts HELLO against the secret APPLE, each made while `GameOver`
is false: the history holds 6 attempts. -/
theorem C9_history_at_most_six_in_play_witness :
    allInPlay id (NewSentenceGame [APPLE]) (List.replicate 6 (Action.guess [HELLO])) = true ∧
    (run id (NewSentenceGame [APPLE]) (List.replicate 6 (Action.guess [HELLO]))).Guesses.length
      = 6 ∧
    (run id (NewSentenceGame [APPLE]) (List.replicate 6 (Action.guess [HELLO]))).Guesses.length
      ≤ maxGuesses :=
  ⟨by decide, by decide,
    C9_history_at_most_six_in_play id [APPLE] (List.replicate 6 (Action.guess [HELLO]))
      (by decide)⟩

/-- C9 as stated fails: seven attempts HELLO against the secret APPLE are all
accepted, the seventh after `GameOver` was set, and the history holds 7
attempts. -/
theorem C9_counterexample_seventh_attempt :
    allAccepted id (NewSentenceGame [APPLE]) (List.replicate 7 [HELLO]) = true ∧
    (run id (NewSentenceGame [APPLE])
      ((List.replicate 7 [HELLO]).map Action.guess)).Guesses.length = 7 ∧
    ¬ ((run id (NewSentenceGame [APPLE])
      ((List.replicate 7 [HELLO]).map Action.guess)).Guesses.length ≤ maxGuesses) := by
  decide

/-- C10, amended: for a game with `GameOver = true` and any attempt, `MakeGuess`
leaves `GameOver` true and never clears `Won`, in the game and in the response, so
a won game stays won; a lost game does not stay lost under every attempt: its
`Won` flag becomes true exactly by an accepted attempt whose words all match the
secret, since `MakeGuess` has no check of `GameOver`. -/
theorem C10_game_over_is_kept (mapUpper : List Nat → List Nat) (game : SentenceGame)
    (attempt : List (List Nat)) (hover : game.GameOver = true) :
    (MakeGuess mapUpper game attempt).1.GameOver = true ∧
      (game.Won = true → (MakeGuess mapUpper game attempt).1.Won = true) ∧
      (∀ r, (MakeGuess mapUpper game attempt).2 = some r →
        r.GameOver = true ∧ (game.Won = true → r.Won = true)) ∧
      (game.Won = false →
        ((MakeGuess mapUpper game attempt).1.Won = true ↔
          (accepted mapUpper game attempt = true ∧
            ∀ (w : Nat) (s g : List Nat), game.Words[w]? = some s →
              (attempt.map (ToUpper mapUpper))[w]? = some g →
              ∀ i, i < wordLength → g[i]? = s[i]?))) := by
  rcases MakeGuess_state_cases mapUpper game attempt with h | h | ⟨row, ac, he, h⟩
  · refine ⟨by rw [h]; exact hover, fun hw => by rw [h]; exact hw, ?_, ?_⟩
    · intro r hr
      by_cases hshape : ShapeOK game attempt
      · cases hv : r.Valid with
        | false => exact absurd hshape (MakeGuess_invalid_inv mapUpper game attempt r hr hv).1
        | true =>
          obtain ⟨_, _, _, hresp⟩ := MakeGuess_valid_inv mapUpper game attempt r hr hv
          rw [hresp, h]
          exact ⟨hover, fun hw => hw⟩
      · rw [MakeGuess_rejected mapUpper game attempt hshape] at hr
        simp only [Option.some.injEq] at hr
        rw [← hr]
        exact ⟨hover, fun hw => hw⟩
    · intro hw
      rw [h, hw]
      constructor
      · intro hf; exact absurd hf (by decide)
      · rintro ⟨hacc, hall⟩
        unfold accepted at hacc
        cases hr : (MakeGuess mapUpper game attempt).2 with
        | none => simp [hr] at hacc
        | some r =>
          simp only [hr] at hacc
          obtain ⟨_, _, hstate, _⟩ := MakeGuess_valid_inv mapUpper game attempt r hr hacc
          rw [h] at hstate
          have hwon : game.Won =
              (allSame game.Words (attempt.map (ToUpper mapUpper)) || game.Won) := by
            conv_lhs => rw [hstate]
            rfl
          rw [(allSame_iff game.Words _).mpr hall, hw] at hwon
          exact absurd hwon (by decide)
  · refine ⟨by rw [h]; exact hover, fun hw => by rw [h]; exact hw, ?_, ?_⟩
    · intro r hr
      by_cases hshape : ShapeOK game attempt
      · cases hv : r.Valid with
        | false => exact absurd hshape (MakeGuess_invalid_inv mapUpper game attempt r hr hv).1
        | true =>
          obtain ⟨_, _, _, hresp⟩ := MakeGuess_valid_inv mapUpper game attempt r hr hv
          rw [hresp, h]
          exact ⟨hover, fun hw => hw⟩
      · rw [MakeGuess_rejected mapUpper game attempt hshape] at hr
        simp only [Option.some.injEq] at hr
        rw [← hr]
        exact ⟨hover, fun hw => hw⟩
    · intro hw
      rw [h]
      show game.Won = true ↔ _
      rw [hw]
      constructor
      · intro hf; exact absurd hf (by decide)
      · rintro ⟨hacc, hall⟩
        unfold accepted at hacc
        cases hr : (MakeGuess mapUpper game attempt).2 with
        | none => simp [hr] at hacc
        | some r =>
          simp only [hr] at hacc
          obtain ⟨_, _, hstate, _⟩ := MakeGuess_valid_inv mapUpper game attempt r hr hacc
          have hlen : (MakeGuess mapUpper game attempt).1.Feedback.length =
              game.Feedback.length := by rw [h]
          rw [hstate] at hlen
          simp [afterGuess] at hlen
  · have hlong := evalWords_some _ _ _ _ he
    have heq := evalWords_eq game.Words (attempt.map (ToUpper mapUpper)) true hlong
    rw [he] at heq
    simp only [Option.some.injEq, Prod.mk.injEq, Bool.true_and] at heq
    obtain ⟨_, hac⟩ := heq
    rw [h]
    refine ⟨by simp [afterGuess, hover], fun hw => by simp [afterGuess, hw], ?_, ?_⟩
    · intro r hr
      simp only [Option.some.injEq] at hr
      rw [← hr]
      exact ⟨by simp [acceptance, afterGuess, hover],
        fun hw => by simp [acceptance, afterGuess, hw]⟩
    · intro hw
      have hacc : accepted mapUpper game attempt = true := by
        unfold accepted; rw [h]; rfl
      show (ac || game.Won) = true ↔ _
      rw [hw, Bool.or_false, hac, allSame_iff]
      exact ⟨fun hall => ⟨hacc, hall⟩, fun hall => hall.2⟩

/-- C10 at the lost game of six attempts HELLO against APPLE and a seventh attempt
HELLO: `GameOver` stays true and `Won` stays false. -/
theorem C10_game_over_is_kept_witness :
    lostGame.GameOver = true ∧ lostGame.Won = false ∧
    (MakeGuess id lostGame [HELLO]).1.Won = false ∧
    ((MakeGuess id lostGame [HELLO]).1.GameOver = true ∧
      (lostGame.Won = true → (MakeGuess id lostGame [HELLO]).1.Won = true) ∧
      (∀ r, (MakeGuess id lostGame [HELLO]).2 = some r →
        r.GameOver = true ∧ (lostGame.Won = true → r.Won = true)) ∧
      (lostGame.Won = false →
        ((MakeGuess id lostGame [HELLO]).1.Won = true ↔
          (accepted id lostGame [HELLO] = true ∧
            ∀ (w : Nat) (s g : List Nat), lostGame.Words[w]? = some s →
              ([HELLO].map (ToUpper id))[w]? = some g →
              ∀ i, i < wordLength → g[i]? = s[i]?)))) :=
  ⟨by decide, by decide, by decide, C10_game_over_is_kept id lostGame [HELLO] (by decide)⟩

/-- C10 as stated fails: the lost game of six attempts HELLO against APPLE has
`GameOver = true` and `Won = false`, and the attempt APPLE is accepted and sets
`Won = true`. -/
theorem C10_counterexample_lost_game_is_won :
    lostGame.GameOver = true ∧ lostGame.Won = false ∧
    accepted id lostGame [APPLE] = true ∧
    (MakeGuess id lostGame [APPLE]).1.Won = true ∧
    ¬ ((MakeGuess id lostGame [APPLE]).1.GameOver = lostGame.GameOver ∧
        (MakeGuess id lostGame [APPLE]).1.Won = lostGame.Won) := by
  decide

/-! ## Frame and invariants for the later claims -/

/-- No call of `MakeGuess` changes `Words`. -/
theorem MakeGuess_words (mapUpper : List Nat → List Nat) (g : SentenceGame)
    (a : List (List Nat)) : (MakeGuess mapUpper g a).1.Words = g.Words := by
  rcases MakeGuess_state_cases mapUpper g a with h | h | ⟨row, ac, _, h⟩
  · rw [h]
  · rw [h]
  · rw [h]; rfl

theorem step_words (mapUpper : List Nat → List Nat) (g : SentenceGame) (act : Action) :
    (step mapUpper g act).Words = g.Words := by
  cases act with
  | reset => rfl
  | guess a => exact MakeGuess_words mapUpper g a

theorem run_words (mapUpper : List Nat → List Nat) (acts : List Action) :
    ∀ g, (run mapUpper g acts).Words = g.Words := by
  induction acts with
  | nil => intro g; rfl
  | cons act rest ih =>
    intro g
    show (run mapUpper (step mapUpper g act) rest).Words = g.Words
    rw [ih, step_words]

/-- A call that is not accepted leaves `Won` and `GameOver` as they were. -/
theorem MakeGuess_flags_of_not_accepted (mapUpper : List Nat → List Nat) (g : SentenceGame)
    (a : List (List Nat)) (h : accepted mapUpper g a = false) :
    (MakeGuess mapUpper g a).1.Won = g.Won ∧
      (MakeGuess mapUpper g a).1.GameOver = g.GameOver := by
  rcases MakeGuess_state_cases mapUpper g a with h1 | h1 | ⟨row, ac, _, h1⟩
  · rw [h1]; exact ⟨rfl, rfl⟩
  · rw [h1]; exact ⟨rfl, rfl⟩
  · unfold accepted at h
    rw [h1] at h
    simp [acceptance] at h

/-- The state of an accepted call in closed form. -/
theorem MakeGuess_of_accepted (mapUpper : List Nat → List Nat) (g : SentenceGame)
    (a : List (List Nat)) (h : accepted mapUpper g a = true) :
    ShapeOK g a ∧ LongEnough g.Words (a.map (ToUpper mapUpper)) ∧
      (MakeGuess mapUpper g a).1 =
        afterGuess g (a.map (ToUpper mapUpper)) (rowOf g.Words (a.map (ToUpper mapUpper)))
          (allSame g.Words (a.map (ToUpper mapUpper))) := by
  unfold accepted at h
  cases hr : (MakeGuess mapUpper g a).2 with
  | none => simp [hr] at h
  | some r =>
    simp only [hr] at h
    obtain ⟨h1, h2, h3, _⟩ := MakeGuess_valid_inv mapUpper g a r hr h
    exact ⟨h1, h2, h3⟩

theorem wonInv_new (words : List (List Nat)) : WonInv (NewSentenceGame words) := by
  constructor <;> intro h <;> simp [NewSentenceGame] at h

theorem wonInv_step (mapUpper : List Nat → List Nat) (g : SentenceGame) (act : Action)
    (h : WonInv g) (hplay : beforeOver g act = true) : WonInv (step mapUpper g act) := by
  cases act with
  | reset => constructor <;> intro hw <;> simp [step, handleNewGame] at hw
  | guess a =>
    have hover : g.GameOver = false := by simpa [beforeOver] using hplay
    have hwon : g.Won = false := by
      cases hw : g.Won with
      | false => rfl
      | true => rw [h.1 hw] at hover; exact absurd hover (by decide)
    show WonInv (MakeGuess mapUpper g a).1
    cases hacc : accepted mapUpper g a with
    | false =>
      obtain ⟨h1, _⟩ := MakeGuess_flags_of_not_accepted mapUpper g a hacc
      constructor <;> intro hw <;> rw [h1, hwon] at hw <;> exact absurd hw (by decide)
    | true =>
      obtain ⟨hshape, _, hstate⟩ := MakeGuess_of_accepted mapUpper g a hacc
      rw [hstate]
      have hw' : ∀ (hw : (afterGuess g (a.map (ToUpper mapUpper))
          (rowOf g.Words (a.map (ToUpper mapUpper)))
          (allSame g.Words (a.map (ToUpper mapUpper)))).Won = true),
          allSame g.Words (a.map (ToUpper mapUpper)) = true := by
        intro hw
        simpa [afterGuess, hwon] using hw
      constructor
      · intro hw
        simp [afterGuess, hw' hw]
      · intro hw
        refine ⟨a.map (ToUpper mapUpper), by simp [afterGuess], ?_, ?_⟩
        · simp [afterGuess, hshape.1]
        · exact (allSame_iff g.Words _).mp (hw' hw)

theorem wonInv_run (mapUpper : List Nat → List Nat) (acts : List Action) :
    ∀ g, WonInv g → allBeforeOver mapUpper g acts = true → WonInv (run mapUpper g acts) := by
  induction acts with
  | nil => intro g h _; exact h
  | cons act rest ih =>
    intro g h hplay
    simp only [allBeforeOver, Bool.and_eq_true] at hplay
    exact ih (step mapUpper g act) (wonInv_step mapUpper g act h hplay.1) hplay.2

/-- Words that agree at the `wordLength` positions and have that length are
equal. -/
theorem eq_of_matchesSecret (words guess : List (List Nat)) (h : MatchesSecret words guess)
    (hwords : ∀ v, v ∈ words → v.length = wordLength)
    (hguess : ∀ v, v ∈ guess → v.length = wordLength) : guess = words := by
  obtain ⟨hlen, hpos⟩ := h
  apply List.ext_getElem hlen
  intro w h1 h2
  have hg : guess[w]? = some guess[w] := List.getElem?_eq_getElem h1
  have hs : words[w]? = some words[w] := List.getElem?_eq_getElem h2
  have hgl := hguess _ (List.getElem_mem h1)
  have hsl := hwords _ (List.getElem_mem h2)
  apply List.ext_getElem?
  intro i
  by_cases hi : i < wordLength
  · exact hpos w _ _ hs hg i hi
  · rw [List.getElem?_eq_none (by omega), List.getElem?_eq_none (by omega)]

/-! ## Claims: the winning attempt and the shape of the histories -/

/-- C11, amended: in every state reached from a fresh game whose secret words
have length 5 by resets and by `MakeGuess` calls each made while `GameOver` is
false, if `Won` is true then the last entry of the guess history has one word per
secret word and holds the letter of the secret at each of the 5 positions of each
word; it equals the secret word for word when its words have length 5. -/
theorem C11_won_last_guess_is_secret (mapUpper : List Nat → List Nat)
    (words : List (List Nat)) (acts : List Action)
    (hwords : ∀ v, v ∈ words → v.length = wordLength)
    (hplay : allBeforeOver mapUpper (NewSentenceGame words) acts = true)
    (hwon : (run mapUpper (NewSentenceGame words) acts).Won = true) :
    ∃ last, (run mapUpper (NewSentenceGame words) acts).Guesses.getLast? = some last ∧
      last.length = words.length ∧
      (∀ (w : Nat) (s g : List Nat), words[w]? = some s → last[w]? = some g →
        ∀ i, i < wordLength → g[i]? = s[i]?) ∧
      ((∀ v, v ∈ last → v.length = wordLength) → last = words) := by
  have hinv := wonInv_run mapUpper acts _ (wonInv_new words) hplay
  obtain ⟨last, hlast, hmatch⟩ := hinv.2 hwon
  rw [run_words] at hmatch
  exact ⟨last, hlast, hmatch.1, hmatch.2,
    fun hlen => eq_of_matchesSecret words last hmatch hwords hlen⟩

/-- C11 at the secret APPLE, MANGO, a first attempt HELLO, MANGO and the winning
attempt apple, mango: the last entry is APPLE, MANGO. -/
theorem C11_won_last_guess_is_secret_witness :
    ((∀ v, v ∈ [APPLE, MANGO] → v.length = wordLength) ∧
      allBeforeOver id (NewSentenceGame [APPLE, MANGO])
        [Action.guess [HELLO, MANGO], Action.guess [apple, [109, 97, 110, 103, 111]]] = true ∧
      (run id (NewSentenceGame [APPLE, MANGO])
        [Action.guess [HELLO, MANGO], Action.guess [apple, [109, 97, 110, 103, 111]]]).Won
        = true) ∧
    (run id (NewSentenceGame [APPLE, MANGO])
      [Action.guess [HELLO, MANGO],
        Action.guess [apple, [109, 97, 110, 103, 111]]]).Guesses.getLast?
      = some [APPLE, MANGO] ∧
    ∃ last, (run id (NewSentenceGame [APPLE, MANGO])
        [Action.guess [HELLO, MANGO],
          Action.guess [apple, [109, 97, 110, 103, 111]]]).Guesses.getLast? = some last ∧
      last.length = [APPLE, MANGO].length ∧
      (∀ (w : Nat) (s g : List Nat), [APPLE, MANGO][w]? = some s → last[w]? = some g →
        ∀ i, i < wordLength → g[i]? = s[i]?) ∧
      ((∀ v, v ∈ last → v.length = wordLength) → last = [APPLE, MANGO]) :=
  ⟨by decide, by decide,
    C11_won_last_guess_is_secret id [APPLE, MANGO]
      [Action.guess [HELLO, MANGO], Action.guess [apple, [109, 97, 110, 103, 111]]]
      (by decide) (by decide) (by decide)⟩

/-- C11 as stated fails in two ways.  After the winning attempt APPLE a further
attempt HELLO is accepted, `Won` stays true and the last entry is HELLO.  And in
the game with the six-letter secret APPLES the attempt APPLE agrees at the five
positions that are compared and wins, while APPLE is not APPLES. -/
theorem C11_counterexample_attempt_after_win :
    ((run id (NewSentenceGame [APPLE]) [Action.guess [APPLE], Action.guess [HELLO]]).Won
        = true ∧
      (run id (NewSentenceGame [APPLE])
        [Action.guess [APPLE], Action.guess [HELLO]]).Guesses.getLast? = some [HELLO] ∧
      (run id (NewSentenceGame [APPLE]) [Action.guess [APPLE], Action.guess [HELLO]]).Words
        = [APPLE] ∧
      [HELLO] ≠ [APPLE]) ∧
    ((run id (NewSentenceGame [APPLES]) [Action.guess [APPLE]]).Won = true ∧
      (run id (NewSentenceGame [APPLES]) [Action.guess [APPLE]]).Guesses.getLast?
        = some [APPLE] ∧
      (run id (NewSentenceGame [APPLES]) [Action.guess [APPLE]]).Words = [APPLES] ∧
      [APPLE] ≠ [APPLES]) := by
  decide

theorem markAt_cases (g s : List Nat) (i : Nat) :
    markAt g s i = Mark.correct ∨ markAt g s i = Mark.present ∨ markAt g s i = Mark.absent := by
  unfold markAt
  split_ifs
  · exact Or.inl rfl
  · exact Or.inr (Or.inl rfl)
  · exact Or.inr (Or.inr rfl)

theorem rowOf_entries (words : List (List Nat)) :
    ∀ (upper : List (List Nat)) (fb : List Mark), fb ∈ rowOf words upper →
      fb.length = wordLength ∧
        ∀ m, m ∈ fb → m = Mark.correct ∨ m = Mark.present ∨ m = Mark.absent := by
  induction words with
  | nil => intro upper fb h; simp [rowOf] at h
  | cons word words ih =>
    intro upper fb h
    cases upper with
    | nil => simp [rowOf] at h
    | cons guess guesses =>
      simp only [rowOf, List.zipWith_cons_cons, List.mem_cons] at h
      rcases h with rfl | h
      · refine ⟨by simp, ?_⟩
        intro m hm
        obtain ⟨i, _, rfl⟩ := List.mem_map.mp hm
        exact markAt_cases guess word i
      · exact ih guesses fb h

theorem rowOf_wellFormed (words upper : List (List Nat)) (hlen : upper.length = words.length) :
    RowWellFormed words upper (rowOf words upper) := by
  have hl : (rowOf words upper).length = words.length := by
    simp [rowOf, hlen]
  exact ⟨hl, by rw [hl, hlen], rowOf_entries words upper⟩

theorem historyInv_new (words : List (List Nat)) : HistoryInv (NewSentenceGame words) := by
  refine ⟨rfl, ?_⟩
  intro k guess row h
  simp [NewSentenceGame] at h

theorem historyInv_reset (g : SentenceGame) : HistoryInv (handleNewGame g) := by
  refine ⟨rfl, ?_⟩
  intro k guess row h
  simp [handleNewGame] at h

theorem historyInv_afterGuess (g : SentenceGame) (upper : List (List Nat)) (ac : Bool)
    (h : HistoryInv g) (hlen : upper.length = g.Words.length) :
    HistoryInv (afterGuess g upper (rowOf g.Words upper) ac) := by
  obtain ⟨hsame, hrows⟩ := h
  refine ⟨by simp [afterGuess, hsame], ?_⟩
  intro k guess row hg hr
  simp only [afterGuess] at hg hr ⊢
  by_cases hk : k < g.Guesses.length
  · rw [List.getElem?_append_left hk] at hg
    rw [List.getElem?_append_left (by omega)] at hr
    exact hrows k guess row hg hr
  · by_cases hk2 : k = g.Guesses.length
    · subst hk2
      rw [List.getElem?_append_right (Nat.le_refl _)] at hg
      rw [hsame, List.getElem?_append_right (Nat.le_refl _)] at hr
      simp only [Nat.sub_self, List.getElem?_cons_zero, Option.some.injEq] at hg hr
      subst hg; subst hr
      exact rowOf_wellFormed g.Words upper hlen
    · rw [List.getElem?_eq_none (by simp; omega)] at hg
      exact absurd hg (by simp)

theorem historyInv_step (mapUpper : List Nat → List Nat) (g : SentenceGame) (act : Action)
    (h : HistoryInv g) (hret : returns mapUpper g act = true) :
    HistoryInv (step mapUpper g act) := by
  cases act with
  | reset => exact historyInv_reset g
  | guess a =>
    show HistoryInv (MakeGuess mapUpper g a).1
    cases hacc : accepted mapUpper g a with
    | true =>
      obtain ⟨hshape, _, hstate⟩ := MakeGuess_of_accepted mapUpper g a hacc
      rw [hstate]
      exact historyInv_afterGuess g _ _ h (by simp [hshape.1])
    | false =>
      obtain ⟨r, hr⟩ := Option.isSome_iff_exists.mp hret
      have hv : r.Valid = false := by
        unfold accepted at hacc
        rw [hr] at hacc
        exact hacc
      rw [(MakeGuess_invalid_inv mapUpper g a r hr hv).2.1]
      exact h

theorem historyInv_run (mapUpper : List Nat → List Nat) (acts : List Action) :
    ∀ g, HistoryInv g → allReturn mapUpper g acts = true →
      HistoryInv (run mapUpper g acts) := by
  induction acts with
  | nil => intro g h _; exact h
  | cons act rest ih =>
    intro g h hret
    simp only [allReturn, Bool.and_eq_true] at hret
    exact ih (step mapUpper g act) (historyInv_step mapUpper g act h hret.1) hret.2

/-- In every state reached from a fresh game by resets and by `MakeGuess` calls
that return a response, `Guesses` and `Feedback` have the same length, and every
row `Feedback[k]` has one array per secret word, as many as `Guesses[k]` has
words, each array of length 5 with every entry `correct`, `present` or
`absent`. -/
theorem histories_aligned_of_allReturn (mapUpper : List Nat → List Nat)
    (words : List (List Nat)) (acts : List Action)
    (hret : allReturn mapUpper (NewSentenceGame words) acts = true) :
    (run mapUpper (NewSentenceGame words) acts).Guesses.length =
        (run mapUpper (NewSentenceGame words) acts).Feedback.length ∧
      ∀ (k : Nat) (guess : List (List Nat)) (row : List (List Mark)),
        (run mapUpper (NewSentenceGame words) acts).Guesses[k]? = some guess →
        (run mapUpper (NewSentenceGame words) acts).Feedback[k]? = some row →
        row.length = words.length ∧ row.length = guess.length ∧
          ∀ fb, fb ∈ row → fb.length = wordLength ∧
            ∀ m, m ∈ fb → m = Mark.correct ∨ m = Mark.present ∨ m = Mark.absent := by
  have hinv := historyInv_run mapUpper acts _ (historyInv_new words) hret
  refine ⟨hinv.1, ?_⟩
  intro k guess row hg hr
  have h := hinv.2 k guess row hg hr
  rw [run_words] at h
  exact h

/-- C12 fails in the fresh game with secret APPLE after the attempts "ſabc" and
hello: the first call appends SABC to `Guesses` and panics at `guess[4]` before a
row is appended to `Feedback`, the second is accepted; `Guesses` then holds 2
entries and `Feedback` holds 1 row, the row of the second attempt standing at the
index of the first. -/
theorem C12_panic_leaves_guess_without_row :
    (∀ v, v ∈ (NewSentenceGame [APPLE]).Words → v.length = wordLength) ∧
    (MakeGuess goMapUpper (NewSentenceGame [APPLE]) [longSabc]).2 = none ∧
    accepted goMapUpper (MakeGuess goMapUpper (NewSentenceGame [APPLE]) [longSabc]).1 [hello]
      = true ∧
    (run goMapUpper (NewSentenceGame [APPLE])
      [Action.guess [longSabc], Action.guess [hello]]).Guesses = [[SABC], [HELLO]] ∧
    (run goMapUpper (NewSentenceGame [APPLE])
      [Action.guess [longSabc], Action.guess [hello]]).Feedback =
        [[[Mark.absent, Mark.present, Mark.absent, Mark.correct, Mark.absent]]] ∧
    ¬ ((run goMapUpper (NewSentenceGame [APPLE])
          [Action.guess [longSabc], Action.guess [hello]]).Guesses.length =
        (run goMapUpper (NewSentenceGame [APPLE])
          [Action.guess [longSabc], Action.guess [hello]]).Feedback.length) := by
  decide

/-- C13: whenever `MakeGuess` returns a response, accepted or rejected, its
`Words`, `Guesses`, `Feedback`, `GameOver` and `Won` are the fields of the game
after the call, and `Words` of the game is what it was before the call. -/
theorem C13_response_is_snapshot (mapUpper : List Nat → List Nat) (game : SentenceGame)
    (attempt : List (List Nat)) (r : GuessResponse)
    (hcall : (MakeGuess mapUpper game attempt).2 = some r) :
    r.Words = (MakeGuess mapUpper game attempt).1.Words ∧
      r.Guesses = (MakeGuess mapUpper game attempt).1.Guesses ∧
      r.Feedback = (MakeGuess mapUpper game attempt).1.Feedback ∧
      r.GameOver = (MakeGuess mapUpper game attempt).1.GameOver ∧
      r.Won = (MakeGuess mapUpper game attempt).1.Won ∧
      (MakeGuess mapUpper game attempt).1.Words = game.Words ∧
      r.Words = game.Words := by
  have hw := MakeGuess_words mapUpper game attempt
  cases hv : r.Valid with
  | true =>
    obtain ⟨_, _, _, hresp⟩ := MakeGuess_valid_inv mapUpper game attempt r hcall hv
    rw [hresp]
    exact ⟨rfl, rfl, rfl, rfl, rfl, hw, hw⟩
  | false =>
    obtain ⟨_, hstate, hresp⟩ := MakeGuess_invalid_inv mapUpper game attempt r hcall hv
    rw [hresp, hstate]
    exact ⟨rfl, rfl, rfl, rfl, rfl, rfl, rfl⟩

/-- C13 at the sixth attempt HELLO against the secret APPLE: the response has
`GameOver` true, `Won` false and shows the secret APPLE. -/
theorem C13_response_is_snapshot_witness :
    (MakeGuess id fiveGuesses [HELLO]).2 =
      some (acceptance (MakeGuess id fiveGuesses [HELLO]).1) ∧
    ((acceptance (MakeGuess id fiveGuesses [HELLO]).1).GameOver = true ∧
      (acceptance (MakeGuess id fiveGuesses [HELLO]).1).Won = false ∧
      (acceptance (MakeGuess id fiveGuesses [HELLO]).1).Words = [APPLE] ∧
      (acceptance (MakeGuess id fiveGuesses [HELLO]).1).Guesses.length = 6) ∧
    ((acceptance (MakeGuess id fiveGuesses [HELLO]).1).Words =
        (MakeGuess id fiveGuesses [HELLO]).1.Words ∧
      (acceptance (MakeGuess id fiveGuesses [HELLO]).1).Guesses =
        (MakeGuess id fiveGuesses [HELLO]).1.Guesses ∧
      (acceptance (MakeGuess id fiveGuesses [HELLO]).1).Feedback =
        (MakeGuess id fiveGuesses [HELLO]).1.Feedback ∧
      (acceptance (MakeGuess id fiveGuesses [HELLO]).1).GameOver =
        (MakeGuess id fiveGuesses [HELLO]).1.GameOver ∧
      (acceptance (MakeGuess id fiveGuesses [HELLO]).1).Won =
        (MakeGuess id fiveGuesses [HELLO]).1.Won ∧
      (MakeGuess id fiveGuesses [HELLO]).1.Words = fiveGuesses.Words ∧
      (acceptance (MakeGuess id fiveGuesses [HELLO]).1).Words = fiveGuesses.Words) :=
  ⟨by decide, by decide,
    C13_response_is_snapshot id fiveGuesses [HELLO]
      (acceptance (MakeGuess id fiveGuesses [HELLO]).1) (by decide)⟩

/-! ## Uppercasing and the length check -/

theorem shapeOK_congr (g : SentenceGame) (a1 a2 : List (List Nat))
    (hlen : a1.map List.length = a2.map List.length) (h : ShapeOK g a1) : ShapeOK g a2 := by
  obtain ⟨h1, h2⟩ := h
  have hl : a1.length = a2.length := by
    have := congrArg List.length hlen
    simpa using this
  refine ⟨by rw [← hl]; exact h1, ?_⟩
  intro w hw
  have hmem : w.length ∈ a2.map List.length := List.mem_map.mpr ⟨w, hw, rfl⟩
  rw [← hlen] at hmem
  obtain ⟨v, hv, hvw⟩ := List.mem_map.mp hmem
  rw [← hvw]
  exact h2 v hv

/-- Two attempts whose words have the same lengths and the same uppercase forms get
the same result from `MakeGuess`, in every game. -/
theorem MakeGuess_congr (mapUpper : List Nat → List Nat) (g : SentenceGame)
    (a1 a2 : List (List Nat)) (hlen : a1.map List.length = a2.map List.length)
    (hup : a1.map (ToUpper mapUpper) = a2.map (ToUpper mapUpper)) :
    MakeGuess mapUpper g a1 = MakeGuess mapUpper g a2 := by
  by_cases h1 : ShapeOK g a1
  · have h2 := shapeOK_congr g a1 a2 hlen h1
    cases he : evalWords g.Words (a1.map (ToUpper mapUpper)) true with
    | none =>
      rw [MakeGuess_panicked mapUpper g a1 h1 he,
        MakeGuess_panicked mapUpper g a2 h2 (by rw [← hup]; exact he), hup]
    | some res =>
      obtain ⟨row, ac⟩ := res
      rw [MakeGuess_accepted mapUpper g a1 row ac h1 he,
        MakeGuess_accepted mapUpper g a2 row ac h2 (by rw [← hup]; exact he), hup]
  · have h2 : ¬ ShapeOK g a2 := fun h => h1 (shapeOK_congr g a2 a1 hlen.symm h)
    rw [MakeGuess_rejected mapUpper g a1 h1, MakeGuess_rejected mapUpper g a2 h2]

theorem upperByte_idem (c : Nat) : upperByte (upperByte c) = upperByte c := by
  unfold upperByte
  split_ifs <;> omega

theorem isASCII_map_upperByte (w : List Nat) (h : isASCII w = true) :
    isASCII (w.map upperByte) = true := by
  simp only [isASCII, List.all_eq_true, decide_eq_true_eq, List.mem_map] at h ⊢
  rintro c ⟨b, hb, rfl⟩
  have := h b hb
  unfold upperByte
  split_ifs <;> omega

theorem ToUpper_idem_of_isASCII (mapUpper : List Nat → List Nat) (w : List Nat)
    (h : isASCII w = true) :
    ToUpper mapUpper (ToUpper mapUpper w) = ToUpper mapUpper w := by
  have h1 : ToUpper mapUpper w = w.map upperByte := by simp [ToUpper, h]
  rw [h1]
  simp only [ToUpper, isASCII_map_upperByte w h, if_true, List.map_map]
  apply List.map_congr_left
  intro c _
  exact upperByte_idem c

/-- On attempts of ASCII words `MakeGuess` does not see the case of the letters:
the uppercased attempt gets the same result as the attempt. -/
theorem MakeGuess_upper_of_isASCII (mapUpper : List Nat → List Nat) (g : SentenceGame)
    (a : List (List Nat)) (h : ∀ w, w ∈ a → isASCII w = true) :
    MakeGuess mapUpper g (a.map (ToUpper mapUpper)) = MakeGuess mapUpper g a := by
  apply MakeGuess_congr
  · rw [List.map_map]
    apply List.map_congr_left
    intro w hw
    exact ToUpper_length_of_isASCII mapUpper w (h w hw)
  · rw [List.map_map]
    apply List.map_congr_left
    intro w hw
    exact ToUpper_idem_of_isASCII mapUpper w (h w hw)

/-- In a game whose secret words have length 5 a call on an attempt of ASCII words
returns a response. -/
theorem MakeGuess_returns_of_isASCII (mapUpper : List Nat → List Nat) (g : SentenceGame)
    (a : List (List Nat)) (hwords : ∀ v, v ∈ g.Words → v.length = wordLength)
    (h : ∀ w, w ∈ a → isASCII w = true) :
    (MakeGuess mapUpper g a).2.isSome = true := by
  by_cases hshape : ShapeOK g a
  · have hupper : ∀ w, w ∈ a → wordLength ≤ (ToUpper mapUpper w).length := by
      intro w hw
      rw [ToUpper_length_of_isASCII mapUpper w (h w hw), hshape.2 w hw]
    have hlong := longEnough_of_shape mapUpper g a hshape hwords hupper
    rw [MakeGuess_accepted mapUpper g a _ _ hshape (evalWords_eq _ _ true hlong)]
    rfl
  · rw [MakeGuess_rejected mapUpper g a hshape]
    rfl

/-! ## Claims: case, stored lengths, reset and start-up -/

/-- C14 fails at the attempt "ɐabc" (5 bytes) and its uppercase form "ⱯABC"
(6 bytes) in the fresh game with secret APPLE: the two differ only in the case of
their letters, the first is accepted and the second is rejected, so `MakeGuess`
on the attempt is not `MakeGuess` on the uppercased attempt. -/
theorem C14_uppercased_attempt_is_rejected :
    ToUpper goMapUpper turnedAabc = turnedAABC ∧
    turnedAabc.length = 5 ∧ turnedAABC.length = 6 ∧
    accepted goMapUpper (NewSentenceGame [APPLE]) [turnedAabc] = true ∧
    (MakeGuess goMapUpper (NewSentenceGame [APPLE])
        ([turnedAabc].map (ToUpper goMapUpper))).2 =
      some (rejection (NewSentenceGame [APPLE])) ∧
    MakeGuess goMapUpper (NewSentenceGame [APPLE]) ([turnedAabc].map (ToUpper goMapUpper)) ≠
      MakeGuess goMapUpper (NewSentenceGame [APPLE]) [turnedAabc] := by
  decide

/-- C15 fails at the attempt "ɐabc" in the fresh game with secret APPLE: the word
has the 5 bytes that the length check asks for, the attempt is accepted, and the
word stored in `Guesses` is its uppercase form "ⱯABC" of 6 bytes. -/
theorem C15_stored_word_has_six_bytes :
    (∀ v, v ∈ (NewSentenceGame [APPLE]).Words → v.length = 5) ∧
    turnedAabc.length = 5 ∧
    accepted goMapUpper (NewSentenceGame [APPLE]) [turnedAabc] = true ∧
    (run goMapUpper (NewSentenceGame [APPLE]) [Action.guess [turnedAabc]]).Guesses =
      [[turnedAABC]] ∧
    turnedAABC.length = 6 ∧
    ¬ (∀ entry, entry ∈ (run goMapUpper (NewSentenceGame [APPLE])
          [Action.guess [turnedAabc]]).Guesses → ∀ v, v ∈ entry → v.length = 5) := by
  decide

/-- C16: the reset of `handleNewGame` leaves a game with empty `Guesses`, empty
`Feedback`, `GameOver` and `Won` false and the old `Words`, which is the game
`NewSentenceGame` builds from those words; and `NewSentenceGame(words)` is that
fresh game with `Words = words`. -/
theorem C16_reset_is_fresh_game (g : SentenceGame) (words : List (List Nat)) :
    (handleNewGame g).Guesses = [] ∧ (handleNewGame g).Feedback = [] ∧
      (handleNewGame g).GameOver = false ∧ (handleNewGame g).Won = false ∧
      (handleNewGame g).Words = g.Words ∧
      handleNewGame g = NewSentenceGame g.Words ∧
      NewSentenceGame words =
        { Words := words, Guesses := [], Feedback := [], GameOver := false, Won := false } :=
  ⟨rfl, rfl, rfl, rfl, rfl, rfl, rfl⟩

theorem allSame_self (words : List (List Nat)) : allSame words words = true := by
  rw [allSame_iff]
  intro w s g hs hg i _
  rw [hs] at hg
  rw [Option.some.inj hg]

/-- C17, amended: the secret is uppercased by `main` before it calls
`NewSentenceGame`, which stores the words it is given as they are.  For every
non-empty list of words of length 5, `main` serves the fresh game whose `Words`
are the `strings.ToUpper` forms of the supplied words, and when the supplied words
are ASCII, guessing them as supplied is accepted and wins. -/
theorem C17_main_uppercases_secret (mapUpper : List Nat → List Nat)
    (parts : List (List Nat)) (hne : parts ≠ [])
    (hlen : ∀ w, w ∈ parts → w.length = wordLength) :
    main mapUpper parts = some (NewSentenceGame (parts.map (ToUpper mapUpper))) ∧
      (NewSentenceGame (parts.map (ToUpper mapUpper))).Words =
        parts.map (ToUpper mapUpper) ∧
      (NewSentenceGame parts).Words = parts ∧
      ((∀ w, w ∈ parts → isASCII w = true) →
        (NewSentenceGame (parts.map (ToUpper mapUpper))).Words = parts.map (List.map upperByte) ∧
          accepted mapUpper (NewSentenceGame (parts.map (ToUpper mapUpper))) parts = true ∧
          (MakeGuess mapUpper (NewSentenceGame (parts.map (ToUpper mapUpper))) parts).1.Won
            = true) := by
  refine ⟨?_, rfl, rfl, ?_⟩
  · have h1 : ¬ parts.length < 1 := by
      cases parts with
      | nil => exact absurd rfl hne
      | cons _ _ => simp
    have h2 : parts.any (fun w => decide (w.length ≠ wordLength)) = false := by
      rw [List.any_eq_false]
      intro w hw
      simp [hlen w hw]
    unfold main
    rw [if_neg h1, h2]
    rfl
  · intro hascii
    have hshape : ShapeOK (NewSentenceGame (parts.map (ToUpper mapUpper))) parts :=
      ⟨by simp [NewSentenceGame], hlen⟩
    have hul : ∀ w, w ∈ parts → (ToUpper mapUpper w).length = wordLength := by
      intro w hw
      rw [ToUpper_length_of_isASCII mapUpper w (hascii w hw), hlen w hw]
    have hlong := longEnough_of_shape mapUpper
      (NewSentenceGame (parts.map (ToUpper mapUpper))) parts hshape
      (by
        intro v hv
        obtain ⟨w, hw, rfl⟩ := List.mem_map.mp hv
        exact hul w hw)
      (fun w hw => Nat.le_of_eq (hul w hw).symm)
    have hcall := MakeGuess_accepted mapUpper _ parts _ _ hshape
      (evalWords_eq _ _ true hlong)
    refine ⟨?_, ?_, ?_⟩
    · show parts.map (ToUpper mapUpper) = parts.map (List.map upperByte)
      apply List.map_congr_left
      intro w hw
      simp [ToUpper, hascii w hw]
    · unfold accepted
      rw [hcall]
      rfl
    · rw [hcall]
      show (true && allSame (NewSentenceGame (parts.map (ToUpper mapUpper))).Words
        (parts.map (ToUpper mapUpper)) || false) = true
      have : (NewSentenceGame (parts.map (ToUpper mapUpper))).Words =
          parts.map (ToUpper mapUpper) := rfl
      rw [this, allSame_self]
      rfl

/-- C17 at the lowercase secret apple, mango: `main` serves the game with the
words APPLE, MANGO, and the attempt apple, mango wins it. -/
theorem C17_main_uppercases_secret_witness :
    ([apple, [109, 97, 110, 103, 111]] ≠ [] ∧
      ∀ w, w ∈ [apple, [109, 97, 110, 103, 111]] → w.length = wordLength) ∧
    main id [apple, [109, 97, 110, 103, 111]] = some (NewSentenceGame [APPLE, MANGO]) ∧
    (main id [apple, [109, 97, 110, 103, 111]] =
        some (NewSentenceGame ([apple, [109, 97, 110, 103, 111]].map (ToUpper id))) ∧
      (NewSentenceGame ([apple, [109, 97, 110, 103, 111]].map (ToUpper id))).Words =
        [apple, [109, 97, 110, 103, 111]].map (ToUpper id) ∧
      (NewSentenceGame [apple, [109, 97, 110, 103, 111]]).Words =
        [apple, [109, 97, 110, 103, 111]] ∧
      ((∀ w, w ∈ [apple, [109, 97, 110, 103, 111]] → isASCII w = true) →
        (NewSentenceGame ([apple, [109, 97, 110, 103, 111]].map (ToUpper id))).Words =
            [apple, [109, 97, 110, 103, 111]].map (List.map upperByte) ∧
          accepted id (NewSentenceGame ([apple, [109, 97, 110, 103, 111]].map (ToUpper id)))
            [apple, [109, 97, 110, 103, 111]] = true ∧
          (MakeGuess id (NewSentenceGame ([apple, [109, 97, 110, 103, 111]].map (ToUpper id)))
            [apple, [109, 97, 110, 103, 111]]).1.Won = true)) :=
  ⟨by decide, by decide,
    C17_main_uppercases_secret id [apple, [109, 97, 110, 103, 111]] (by decide) (by decide)⟩

/-- C17 as stated fails: `NewSentenceGame` on the lowercase word apple holds apple,
not APPLE, as `Words`, and neither the attempt apple nor the attempt APPLE wins
that game, because only the guess is uppercased. -/
theorem C17_counterexample_lowercase_secret_kept :
    (∀ w, w ∈ [apple] → w.length = 5) ∧
    (NewSentenceGame [apple]).Words = [apple] ∧
    [apple].map (ToUpper id) = [APPLE] ∧
    (NewSentenceGame [apple]).Words ≠ [apple].map (ToUpper id) ∧
    accepted id (NewSentenceGame [apple]) [apple] = true ∧
    (MakeGuess id (NewSentenceGame [apple]) [apple]).1.Won = false ∧
    (MakeGuess id (NewSentenceGame [apple]) [APPLE]).1.Won = false := by
  decide

/-! ## Claims: index safety, exact credit and word independence -/

/-- C18 fails at the attempt "ſabc" in the fresh game with secret APPLE: the word
has the 5 bytes that the length check asks for, `strings.ToUpper` turns it into
SABC of 4 bytes, the attempt is appended to `Guesses`, and the first pass reads
`guess[4]` out of range: the call panics and returns no response. -/
theorem C18_guess_index_out_of_range :
    (∀ v, v ∈ (NewSentenceGame [APPLE]).Words → v.length = 5) ∧
    longSabc.length = 5 ∧
    ToUpper goMapUpper longSabc = SABC ∧ SABC[4]? = none ∧
    wordFeedback SABC APPLE true = none ∧
    MakeGuess goMapUpper (NewSentenceGame [APPLE]) [longSabc] =
      ({ Words := [APPLE], Guesses := [[SABC]], Feedback := [], GameOver := false,
         Won := false }, none) := by
  decide

theorem exactBefore_add_misplacedBefore (g s : List Nat) (c : Option Nat) (n : Nat) :
    exactBefore g s c n + misplacedBefore g s c n =
      (List.range n).countP (fun i => decide (g[i]? = c)) := by
  induction n with
  | zero => simp [exactBefore, misplacedBefore]
  | succ n ih =>
    have he : exactBefore g s c (n + 1) = exactBefore g s c n +
        (if s[n]? = c ∧ g[n]? = s[n]? then 1 else 0) := by
      simp only [exactBefore, List.range_succ, List.countP_append, List.countP_cons,
        List.countP_nil]
      split_ifs <;> simp_all
    have hc : (List.range (n + 1)).countP (fun i => decide (g[i]? = c)) =
        (List.range n).countP (fun i => decide (g[i]? = c)) +
          (if g[n]? = c then 1 else 0) := by
      simp only [List.range_succ, List.countP_append, List.countP_cons, List.countP_nil]
      split_ifs <;> simp_all
    rw [he, hc, misplacedBefore_succ, ← ih]
    by_cases h1 : g[n]? = c
    · by_cases h2 : g[n]? = s[n]?
      · have e1 : (if s[n]? = c ∧ g[n]? = s[n]? then 1 else 0) = 1 :=
          if_pos ⟨by rw [← h2, h1], h2⟩
        have e2 : (if g[n]? = c ∧ g[n]? ≠ s[n]? then 1 else 0) = 0 :=
          if_neg (fun h => h.2 h2)
        have e3 : (if g[n]? = c then 1 else 0) = 1 := if_pos h1
        rw [e1, e2, e3]; omega
      · have e1 : (if s[n]? = c ∧ g[n]? = s[n]? then 1 else 0) = 0 :=
          if_neg (fun h => h2 h.2)
        have e2 : (if g[n]? = c ∧ g[n]? ≠ s[n]? then 1 else 0) = 1 := if_pos ⟨h1, h2⟩
        have e3 : (if g[n]? = c then 1 else 0) = 1 := if_pos h1
        rw [e1, e2, e3]; omega
    · have e1 : (if s[n]? = c ∧ g[n]? = s[n]? then 1 else 0) = 0 :=
        if_neg (fun h => h1 (h.2.trans h.1))
      have e2 : (if g[n]? = c ∧ g[n]? ≠ s[n]? then 1 else 0) = 0 := if_neg (fun h => h1 h.1)
      have e3 : (if g[n]? = c then 1 else 0) = 0 := if_neg h1
      rw [e1, e2, e3]; omega

/-- The credited copies of a letter are as many as the smaller of its numbers of
occurrences in guess and secret. -/
theorem creditedBefore_eq_min_count (g s : List Nat) (c : Nat)
    (hs : s.length = wordLength) (hg : g.length = wordLength) :
    creditedBefore g s (some c) wordLength = min (g.count c) (s.count c) := by
  have h1 := exactBefore_add_misplacedBefore g s (some c) wordLength
  have h2 := exactBefore_add_unmatched g s (some c)
  have h3 := countP_range_getElem?_eq_count g c
  have h4 := countP_range_getElem?_eq_count s c
  rw [hg] at h3
  rw [hs] at h4
  rw [creditedBefore_eq, ← h3, ← h4, ← h1, ← h2]
  omega

/-- C19: no under-crediting.  For an accepted attempt, a secret word `s` and its
uppercased guess word `g`, both of length 5, and a letter `c`, the number of
positions of `g` that hold `c` and are marked `correct` or `present` is the
minimum of the occurrences of `c` in `g` and in `s`. -/
theorem C19_credit_is_min_of_counts (mapUpper : List Nat → List Nat)
    (game : SentenceGame) (attempt : List (List Nat)) (r : GuessResponse)
    (hcall : (MakeGuess mapUpper game attempt).2 = some r) (hvalid : r.Valid = true)
    (w : Nat) (s g : List Nat) (hs : game.Words[w]? = some s)
    (hg : (attempt.map (ToUpper mapUpper))[w]? = some g)
    (hslen : s.length = wordLength) (hglen : g.length = wordLength) (c : Nat) :
    (List.range wordLength).countP
        (fun i => decide (g[i]? = some c ∧
          (lastFeedback (MakeGuess mapUpper game attempt).1 w i = some Mark.correct ∨
            lastFeedback (MakeGuess mapUpper game attempt).1 w i = some Mark.present)))
      = min (g.count c) (s.count c) := by
  obtain ⟨_, _, hstate, _⟩ := MakeGuess_valid_inv mapUpper game attempt r hcall hvalid
  have hcount := creditedBefore_eq_min_count g s c hslen hglen
  unfold creditedBefore at hcount
  rw [← hcount]
  apply countP_range_congr
  intro i hi
  rw [hstate, lastFeedback_afterGuess game _ _ w i s g hs hg hi]
  simp

/-- C19 at secret ROBOT, guess BOOBS and the letter O (79): the guess and the
secret both hold two copies of O, and two are credited. -/
theorem C19_credit_is_min_of_counts_witness :
    ((MakeGuess id (NewSentenceGame [ROBOT]) [BOOBS]).2 =
        some (acceptance (MakeGuess id (NewSentenceGame [ROBOT]) [BOOBS]).1) ∧
      (acceptance (MakeGuess id (NewSentenceGame [ROBOT]) [BOOBS]).1).Valid = true ∧
      (NewSentenceGame [ROBOT]).Words[0]? = some ROBOT ∧
      ([BOOBS].map (ToUpper id))[0]? = some BOOBS ∧
      ROBOT.length = wordLength ∧ BOOBS.length = wordLength) ∧
    (BOOBS.count 79 = 2 ∧ ROBOT.count 79 = 2) ∧
    (List.range wordLength).countP
        (fun i => decide (BOOBS[i]? = some 79 ∧
          (lastFeedback (MakeGuess id (NewSentenceGame [ROBOT]) [BOOBS]).1 0 i
              = some Mark.correct ∨
            lastFeedback (MakeGuess id (NewSentenceGame [ROBOT]) [BOOBS]).1 0 i
              = some Mark.present)))
      = min (BOOBS.count 79) (ROBOT.count 79) :=
  ⟨by decide, by decide,
    C19_credit_is_min_of_counts id (NewSentenceGame [ROBOT]) [BOOBS]
      (acceptance (MakeGuess id (NewSentenceGame [ROBOT]) [BOOBS]).1) (by decide) (by decide)
      0 ROBOT BOOBS (by decide) (by decide) (by decide) (by decide) 79⟩

theorem lastRowWord_afterGuess (g : SentenceGame) (upper : List (List Nat)) (ac : Bool)
    (w : Nat) (s gw : List Nat) (hs : g.Words[w]? = some s) (hg : upper[w]? = some gw) :
    lastRowWord (afterGuess g upper (rowOf g.Words upper) ac) w =
      some ((List.range wordLength).map (markAt gw s)) := by
  have hrow : (rowOf g.Words upper)[w]? = some ((List.range wordLength).map (markAt gw s)) := by
    simp [rowOf, List.getElem?_zipWith, hs, hg]
  simp [lastRowWord, afterGuess, hrow]

/-- C20: word independence.  For two accepted calls of `MakeGuess`, on any two
games, in which the secret word `w` is the same and the guess word `w` is the
same, the `w`-th array of the appended feedback row is the same: it is the
closed-form feedback of that one pair of words. -/
theorem C20_word_feedback_independent (mapUpper : List Nat → List Nat)
    (game1 game2 : SentenceGame) (attempt1 attempt2 : List (List Nat))
    (r1 r2 : GuessResponse)
    (hcall1 : (MakeGuess mapUpper game1 attempt1).2 = some r1) (hvalid1 : r1.Valid = true)
    (hcall2 : (MakeGuess mapUpper game2 attempt2).2 = some r2) (hvalid2 : r2.Valid = true)
    (w : Nat) (s x : List Nat)
    (hs1 : game1.Words[w]? = some s) (hs2 : game2.Words[w]? = some s)
    (hx1 : attempt1[w]? = some x) (hx2 : attempt2[w]? = some x) :
    lastRowWord (MakeGuess mapUpper game1 attempt1).1 w =
        lastRowWord (MakeGuess mapUpper game2 attempt2).1 w ∧
      lastRowWord (MakeGuess mapUpper game1 attempt1).1 w =
        some ((List.range wordLength).map (markAt (ToUpper mapUpper x) s)) := by
  obtain ⟨_, _, hstate1, _⟩ := MakeGuess_valid_inv mapUpper game1 attempt1 r1 hcall1 hvalid1
  obtain ⟨_, _, hstate2, _⟩ := MakeGuess_valid_inv mapUpper game2 attempt2 r2 hcall2 hvalid2
  have hu1 : (attempt1.map (ToUpper mapUpper))[w]? = some (ToUpper mapUpper x) := by
    simp [List.getElem?_map, hx1]
  have hu2 : (attempt2.map (ToUpper mapUpper))[w]? = some (ToUpper mapUpper x) := by
    simp [List.getElem?_map, hx2]
  rw [hstate1, hstate2, lastRowWord_afterGuess game1 _ _ w s _ hs1 hu1,
    lastRowWord_afterGuess game2 _ _ w s _ hs2 hu2]
  exact ⟨rfl, rfl⟩

/-- C20 at word 0 with secret word APPLE and guess word ALLOT, once in a fresh
game with the secret APPLE, MANGO and the attempt ALLOT, HELLO, and once in the
game with the secret APPLE after five attempts. -/
theorem C20_word_feedback_independent_witness :
    ((MakeGuess id (NewSentenceGame [APPLE, MANGO]) [ALLOT, HELLO]).2 =
        some (acceptance (MakeGuess id (NewSentenceGame [APPLE, MANGO]) [ALLOT, HELLO]).1) ∧
      (acceptance (MakeGuess id (NewSentenceGame [APPLE, MANGO]) [ALLOT, HELLO]).1).Valid
        = true ∧
      (MakeGuess id fiveGuesses [ALLOT]).2 =
        some (acceptance (MakeGuess id fiveGuesses [ALLOT]).1) ∧
      (acceptance (MakeGuess id fiveGuesses [ALLOT]).1).Valid = true ∧
      (NewSentenceGame [APPLE, MANGO]).Words[0]? = some APPLE ∧
      fiveGuesses.Words[0]? = some APPLE ∧
      [ALLOT, HELLO][0]? = some ALLOT ∧ [ALLOT][0]? = some ALLOT) ∧
    lastRowWord (MakeGuess id fiveGuesses [ALLOT]).1 0 =
      some [Mark.correct, Mark.present, Mark.absent, Mark.absent, Mark.absent] ∧
    (lastRowWord (MakeGuess id (NewSentenceGame [APPLE, MANGO]) [ALLOT, HELLO]).1 0 =
        lastRowWord (MakeGuess id fiveGuesses [ALLOT]).1 0 ∧
      lastRowWord (MakeGuess id (NewSentenceGame [APPLE, MANGO]) [ALLOT, HELLO]).1 0 =
        some ((List.range wordLength).map (markAt (ToUpper id ALLOT) APPLE))) :=
  ⟨by decide, by decide,
    C20_word_feedback_independent id (NewSentenceGame [APPLE, MANGO]) fiveGuesses
      [ALLOT, HELLO] [ALLOT]
      (acceptance (MakeGuess id (NewSentenceGame [APPLE, MANGO]) [ALLOT, HELLO]).1)
      (acceptance (MakeGuess id fiveGuesses [ALLOT]).1)
      (by decide) (by decide) (by decide) (by decide) 0 APPLE ALLOT
      (by decide) (by decide) (by decide) (by decide)⟩

end MultiWordle
